import Mathlib

/-!
# SimpleEQ: the response-curve editor (`Source/PluginEditor.cpp`)

A shallow embedding of `ResponseCurveComponent`, `PathProducer` and
`RotarySliderWithLabels::getDisplayString`.

Conventions of the embedding:

* `D` is the numeric type of the C++ `float`/`double` values.  Definitions only use the
  operations the source applies (`*`, `/`, casts from integers, ...), with no algebraic law
  assumed, so that every statement proved for an arbitrary `D` also covers IEEE arithmetic.
* `C` is the type of a biquad coefficient set (`juce::dsp::IIR::Coefficients`).
* Functions of `PluginProcessor.h` and numeric functions of the libraries that the editor
  calls are taken as parameters, named as in the source; short JUCE functions with a fixed
  definition (`jmap`, `mapToLog10`, `Rectangle::removeFrom...`) are transcribed.
* An access outside a buffer has no defined result: the operation returns `none`.
-/

namespace SimpleEQ

/-! ## Data model -/

/-- One IIR filter section (`juce::dsp::IIR::Filter<float>`); the editor only reads and
replaces its coefficient set. -/
structure Filter (C : Type) where
  coefficients : C
deriving DecidableEq, Repr

/-- Modelled from the spec: the type `CutFilter` is declared in `PluginProcessor.h`, not in
the editor.  The spec gives a cut stage up to four second-order sections, "each independently
bypassable"; the editor reads them as `get<0..3>()` and `isBypassed<0..3>()`. -/
structure CutFilter (C : Type) where
  f0 : Filter C
  f1 : Filter C
  f2 : Filter C
  f3 : Filter C
  bypassed0 : Bool
  bypassed1 : Bool
  bypassed2 : Bool
  bypassed3 : Bool
deriving DecidableEq, Repr

/-- Modelled from the spec: the type `MonoChain` is declared in `PluginProcessor.h`.  The
spec gives the cascade low-cut, peak, high-cut "with an explicit per-stage and per-section
bypass flag"; the editor reads the stages as `get<ChainPositions::...>()` and the stage flags
as `isBypassed<ChainPositions::...>()`. -/
structure MonoChain (C : Type) where
  lowCut : CutFilter C
  peak : Filter C
  highCut : CutFilter C
  lowCutBypassed : Bool
  peakBypassed : Bool
  highCutBypassed : Bool
deriving DecidableEq, Repr

/-- Slope choices of a cut stage (`Slope_12 .. Slope_48` in `PluginProcessor.h`). -/
inductive Slope where
  | Slope_12
  | Slope_24
  | Slope_36
  | Slope_48
deriving DecidableEq, Repr

/-- Modelled from the spec: `ChainSettings` is declared in `PluginProcessor.h`.  The spec
describes it as the snapshot of all stage parameters: enabled flag, frequency, gain and Q
(peak only) and slope (cut stages only). -/
structure ChainSettings (D : Type) where
  peakFreq : D
  peakGainInDecibels : D
  peakQuality : D
  lowCutFreq : D
  highCutFreq : D
  lowCutSlope : Slope
  highCutSlope : Slope
  lowCutBypassed : Bool
  peakBypassed : Bool
  highCutBypassed : Bool
deriving DecidableEq, Repr

/-- The helpers of `PluginProcessor.h` that `updateChain` calls, as parameters. -/
structure ChainHelpers (D C : Type) where
  makePeakFilter : ChainSettings D → D → C
  makeLowCutFilter : ChainSettings D → D → List C
  makeHighCutFilter : ChainSettings D → D → List C
  updateCoefficients : C → C → C
  updateCutFilter : CutFilter C → List C → Slope → CutFilter C

/-! ## `ResponseCurveComponent::updateChain` -/

/-- `ResponseCurveComponent::updateChain` (lines 281-298).  `chainSettings` is the value of
`getChainSettings(audioProcessor.apvts)` and `sampleRate` that of
`audioProcessor.getSampleRate()`. -/
def updateChain {D C : Type} (h : ChainHelpers D C) (chainSettings : ChainSettings D)
    (sampleRate : D) (monoChain : MonoChain C) : MonoChain C :=
  let monoChain := { monoChain with lowCutBypassed := chainSettings.lowCutBypassed }
  let monoChain := { monoChain with peakBypassed := chainSettings.peakBypassed }
  let monoChain := { monoChain with highCutBypassed := chainSettings.highCutBypassed }
  let peakCoefficients := h.makePeakFilter chainSettings sampleRate
  let lowCutCoefficients := h.makeLowCutFilter chainSettings sampleRate
  let highCutCoefficients := h.makeHighCutFilter chainSettings sampleRate
  let monoChain := { monoChain with
    peak := { coefficients := h.updateCoefficients monoChain.peak.coefficients peakCoefficients } }
  let monoChain := { monoChain with
    lowCut := h.updateCutFilter monoChain.lowCut lowCutCoefficients chainSettings.lowCutSlope }
  { monoChain with
    highCut := h.updateCutFilter monoChain.highCut highCutCoefficients chainSettings.highCutSlope }

/-! ## `ResponseCurveComponent::paint`: the magnitude of one pixel column -/

/-- The four guarded updates `if (! cut.isBypassed<k>()) mag *= cut.get<k>()...` that paint
applies for a cut stage (lines 330-337 and 341-348), in source order. -/
def cutSectionsMagnitude {D C : Type} [Mul D] (getMagnitudeForFrequency : C → D → D → D)
    (cut : CutFilter C) (freq sampleRate : D) (mag : D) : D :=
  let mag := if !cut.bypassed0 then
    mag * getMagnitudeForFrequency cut.f0.coefficients freq sampleRate else mag
  let mag := if !cut.bypassed1 then
    mag * getMagnitudeForFrequency cut.f1.coefficients freq sampleRate else mag
  let mag := if !cut.bypassed2 then
    mag * getMagnitudeForFrequency cut.f2.coefficients freq sampleRate else mag
  let mag := if !cut.bypassed3 then
    mag * getMagnitudeForFrequency cut.f3.coefficients freq sampleRate else mag
  mag

/-- The body of paint's column loop up to the conversion to decibels (lines 323-349):
`mag` starts at 1 and is multiplied by the response of the peak section, then of the low-cut
sections, then of the high-cut sections, each under its bypass tests. -/
def columnMagnitude {D C : Type} [Mul D] [One D] (getMagnitudeForFrequency : C → D → D → D)
    (monoChain : MonoChain C) (freq sampleRate : D) : D :=
  let mag : D := 1
  let mag := if !monoChain.peakBypassed then
    mag * getMagnitudeForFrequency monoChain.peak.coefficients freq sampleRate else mag
  let mag := if !monoChain.lowCutBypassed then
    cutSectionsMagnitude getMagnitudeForFrequency monoChain.lowCut freq sampleRate mag else mag
  let mag := if !monoChain.highCutBypassed then
    cutSectionsMagnitude getMagnitudeForFrequency monoChain.highCut freq sampleRate mag else mag
  mag

/-- JUCE `mapToLog10(value0To1, logRangeMin, logRangeMax)`:
`pow(10, value0To1 * (log10(max) - log10(min)) + log10(min))`, over the `log10` and `pow`
of the numeric type. -/
def mapToLog10 {D : Type} [Add D] [Sub D] [Mul D] [NatCast D] (log10 : D → D) (pow : D → D → D)
    (value0To1 logRangeMin logRangeMax : D) : D :=
  let logMin := log10 logRangeMin
  let logMax := log10 logRangeMax
  pow ((10 : ℕ) : D) (value0To1 * (logMax - logMin) + logMin)

/-- The frequency sampled for pixel column `i` of `w` (line 324):
`mapToLog10(double(i) / double(w), 20.0, 20000.0)`. -/
def columnFrequency {D : Type} [Add D] [Sub D] [Mul D] [Div D] [NatCast D]
    (log10 : D → D) (pow : D → D → D) (i w : ℕ) : D :=
  mapToLog10 log10 pow ((i : D) / (w : D)) ((20 : ℕ) : D) ((20000 : ℕ) : D)

/-- JUCE `Decibels::gainToDecibels(gain)` with the default floor of -100 dB:
`gain > 0 ? jmax(-100, log10(gain) * 20) : -100`, over the `log10` of the numeric type. -/
def gainToDecibels {D : Type} [Zero D] [Mul D] [Neg D] [NatCast D] [Max D] [LT D]
    [DecidableRel (fun a b : D => a < b)] (log10 : D → D) (gain : D) : D :=
  let minusInfinityDb : D := -((100 : ℕ) : D)
  if (0 : D) < gain then max minusInfinityDb (log10 gain * ((20 : ℕ) : D)) else minusInfinityDb

/-- Write to element `i` of a buffer (`buf[i] = v`); `none` when the element does not
exist. -/
def writeAt {α : Type} (buf : List α) (i : ℤ) (v : α) : Option (List α) :=
  if 0 ≤ i ∧ i.toNat < buf.length then some (buf.set i.toNat v) else none

/-- Read element `i` of a buffer; `none` when the element does not exist. -/
def readAt {α : Type} (buf : List α) (i : ℤ) : Option α :=
  if 0 ≤ i then buf[i.toNat]? else none

/-- The numeric library functions paint calls (JUCE and `<cmath>`), as parameters. -/
structure PaintMath (D C : Type) where
  getMagnitudeForFrequency : C → D → D → D
  gainToDecibels : D → D
  log10 : D → D
  pow : D → D → D

/-- The magnitude array of paint (lines 318-352): `mags.resize(w)` gives `w` zeros, then
for `i = 0 .. w-1` the column magnitude is computed and `mags[i]` receives its value in
decibels. -/
def paintMags {D C : Type} [Zero D] [One D] [Add D] [Sub D] [Mul D] [Div D] [NatCast D]
    (m : PaintMath D C) (monoChain : MonoChain C) (sampleRate : D) (w : ℕ) :
    Option (List D) :=
  (List.range w).foldlM
    (fun (mags : List D) (i : ℕ) =>
      let freq := columnFrequency m.log10 m.pow i w
      let mag := columnMagnitude m.getMagnitudeForFrequency monoChain freq sampleRate
      writeAt mags (i : ℤ) (m.gainToDecibels mag))
    (List.replicate w (0 : D))

/-! ## Geometry: `juce::Rectangle<int>` and the analysis area -/

/-- A `juce::Rectangle`: position of the top-left corner, width and height. -/
structure Rectangle (T : Type) where
  x : T
  y : T
  w : T
  h : T
deriving DecidableEq, Repr

/-- JUCE `Rectangle::getRight()`: `x + w`. -/
def Rectangle.getRight (r : Rectangle ℤ) : ℤ := r.x + r.w

/-- JUCE `Rectangle::getBottom()`: `y + h`. -/
def Rectangle.getBottom (r : Rectangle ℤ) : ℤ := r.y + r.h

/-- JUCE `Rectangle::removeFromTop(amount)`, the rectangle that remains:
the strip removed has height `jmin(amount, h)`. -/
def Rectangle.removeFromTop (r : Rectangle ℤ) (amountToRemove : ℤ) : Rectangle ℤ :=
  let removed := min amountToRemove r.h
  { r with y := r.y + removed, h := r.h - removed }

/-- JUCE `Rectangle::removeFromBottom(amount)`, the rectangle that remains. -/
def Rectangle.removeFromBottom (r : Rectangle ℤ) (amountToRemove : ℤ) : Rectangle ℤ :=
  let removed := min amountToRemove r.h
  { r with h := r.h - removed }

/-- JUCE `Rectangle::removeFromLeft(amount)`, the rectangle that remains. -/
def Rectangle.removeFromLeft (r : Rectangle ℤ) (amountToRemove : ℤ) : Rectangle ℤ :=
  let removed := min amountToRemove r.w
  { r with x := r.x + removed, w := r.w - removed }

/-- JUCE `Rectangle::removeFromRight(amount)`, the rectangle that remains. -/
def Rectangle.removeFromRight (r : Rectangle ℤ) (amountToRemove : ℤ) : Rectangle ℤ :=
  let removed := min amountToRemove r.w
  { r with w := r.w - removed }

/-- JUCE `Rectangle<int>::toFloat()`. -/
def Rectangle.toFloat {D : Type} [IntCast D] (r : Rectangle ℤ) : Rectangle D :=
  { x := (r.x : D), y := (r.y : D), w := (r.w : D), h := (r.h : D) }

/-- JUCE `Component::getLocalBounds()`: the component's size at the origin. -/
def getLocalBounds (width height : ℤ) : Rectangle ℤ :=
  { x := 0, y := 0, w := width, h := height }

/-- `ResponseCurveComponent::getRenderArea` (lines 503-512). -/
def getRenderArea (width height : ℤ) : Rectangle ℤ :=
  let bounds := getLocalBounds width height
  let bounds := bounds.removeFromTop 12
  let bounds := bounds.removeFromBottom 2
  let bounds := bounds.removeFromLeft 20
  let bounds := bounds.removeFromRight 20
  bounds

/-- `ResponseCurveComponent::getAnalysisArea` (lines 514-521). -/
def getAnalysisArea (width height : ℤ) : Rectangle ℤ :=
  let bounds := getRenderArea width height
  let bounds := bounds.removeFromTop 4
  let bounds := bounds.removeFromBottom 4
  bounds

/-! ## Paths -/

/-- One element of a `juce::Path`: the start of a sub-path or a line to a vertex. -/
inductive PathElement (D : Type) where
  | startNewSubPath (x y : D)
  | lineTo (x y : D)
deriving DecidableEq, Repr

/-- A `juce::Path` as the sequence of its elements. -/
abbrev Path (D : Type) := List (PathElement D)

/-- The vertex of a path element. -/
def PathElement.vertex {D : Type} : PathElement D → D × D
  | .startNewSubPath x y => (x, y)
  | .lineTo x y => (x, y)

/-- JUCE `Path::applyTransform(AffineTransform().translation(dx, dy))`. -/
def Path.translated {D : Type} [Add D] (p : Path D) (dx dy : D) : Path D :=
  p.map fun e =>
    match e with
    | .startNewSubPath x y => .startNewSubPath (x + dx) (y + dy)
    | .lineTo x y => .lineTo (x + dx) (y + dy)

/-! ## `PathProducer::process` -/

/-- JUCE `FloatVectorOperations::copy(dest, src, num)` when both pointers point into the
same buffer, at offsets `destOff` and `srcOff`: the elements are copied in ascending order.
A negative `num` or an element outside the buffer gives no result. -/
def copyWithin {α : Type} (buf : List α) (destOff srcOff num : ℤ) : Option (List α) :=
  if num < 0 then none else
    (List.range num.toNat).foldlM
      (fun (b : List α) (k : ℕ) =>
        (readAt b (srcOff + k)).bind (fun v => writeAt b (destOff + k) v)) buf

/-- JUCE `FloatVectorOperations::copy(dest, src, num)` from a second buffer `src` at offset
`srcOff` into `dest` at offset `destOff`. -/
def copyFrom {α : Type} (dest : List α) (destOff : ℤ) (src : List α) (srcOff num : ℤ) :
    Option (List α) :=
  if num < 0 then none else
    (List.range num.toNat).foldlM
      (fun (b : List α) (k : ℕ) =>
        (readAt src (srcOff + k)).bind (fun v => writeAt b (destOff + k) v)) dest

/-- The ingest step of `PathProducer::process` (lines 227-237): with
`size = tempIncomingBuffer.getNumSamples()`, copy `monoBuffer[size ..]` to the front
(`getNumSamples() - size` elements), then copy the incoming block to
`monoBuffer[getNumSamples() - size ..]`. -/
def ingest {α : Type} (monoBuffer tempIncomingBuffer : List α) : Option (List α) :=
  let size : ℤ := tempIncomingBuffer.length
  let numSamples : ℤ := monoBuffer.length
  (copyWithin monoBuffer 0 size (numSamples - size)).bind
    (fun shifted => copyFrom shifted (numSamples - size) tempIncomingBuffer 0 size)

/-- The parts of `FFTDataGenerator` and `AnalyzerPathGenerator` (declared in the headers)
that are not fixed by the editor: the transform length, the frame computed from a window,
the path rendered from a frame, and what the two queues do with a new element. -/
structure AnalyzerHelpers (D S : Type) where
  fftSize : ℕ
  computeFFTData : List D → D → List D
  pushFFTData : List (List D) → List D → List (List D)
  renderPath : S → List D → Rectangle D → ℕ → D → D → S × Path D
  pushPath : List (Path D) → Path D → List (Path D)

/-- Modelled from the spec: `FFTDataGenerator` is declared in a header.  The spec gives the
analyzer a `FrameQueue`, a "bounded queue of ready TransformFrames between analyzer and path
generator"; `fftDataFifo` holds the frames available, oldest first. -/
structure FFTDataGenerator (D : Type) where
  fftDataFifo : List (List D)
deriving DecidableEq, Repr

/-- Modelled from the spec: `produceFFTDataForRendering(audioData, negativeInfinity)`
"applies a window function to the current RollingSampleWindow, runs a fixed-size forward
transform ... converts to decibels" and makes the frame available in the queue. -/
def FFTDataGenerator.produceFFTDataForRendering {D S : Type} (a : AnalyzerHelpers D S)
    (gen : FFTDataGenerator D) (audioData : List D) (negativeInfinity : D) :
    FFTDataGenerator D :=
  { fftDataFifo := a.pushFFTData gen.fftDataFifo (a.computeFFTData audioData negativeInfinity) }

/-- Modelled from the spec: `AnalyzerPathGenerator` is declared in a header.  The spec's
`CurvePathGenerator` keeps an "internal smoothed magnitude array" (`smoothed`) and emits
render paths; `pathFifo` holds the paths available, oldest first. -/
structure AnalyzerPathGenerator (D S : Type) where
  smoothed : S
  pathFifo : List (Path D)
deriving DecidableEq, Repr

/-- Modelled from the spec: `generatePath(fftData, fftBounds, fftSize, binWidth,
negativeInfinity)` consumes a frame, updates the smoothed state and makes the rendered path
available. -/
def AnalyzerPathGenerator.generatePath {D S : Type} (a : AnalyzerHelpers D S)
    (pg : AnalyzerPathGenerator D S) (fftData : List D) (fftBounds : Rectangle D) (fftSize : ℕ)
    (binWidth negativeInfinity : D) : AnalyzerPathGenerator D S :=
  let r := a.renderPath pg.smoothed fftData fftBounds fftSize binWidth negativeInfinity
  { smoothed := r.1, pathFifo := a.pushPath pg.pathFifo r.2 }

/-- State of a `PathProducer`.  `leftChannelFifo` is the transport the producer points to:
the complete buffers available, oldest first. -/
structure PathProducer (D S : Type) where
  leftChannelFifo : List (List D)
  monoBuffer : List D
  leftChannelFFTDataGenerator : FFTDataGenerator D
  pathProducer : AnalyzerPathGenerator D S
  leftChannelFFTPath : Path D
deriving DecidableEq, Repr

/-- First loop of `process` (lines 225-241): while the transport has a complete buffer,
take it (`getAudioBuffer` succeeds when one is available), ingest it into `monoBuffer` and
call `produceFFTDataForRendering(monoBuffer, -48.f)`.  The first argument is the queue of
complete buffers, oldest first. -/
def drainTransport {D S : Type} [Neg D] [NatCast D] (a : AnalyzerHelpers D S) :
    List (List D) → List D → FFTDataGenerator D → Option (List D × FFTDataGenerator D)
  | [], monoBuffer, gen => some (monoBuffer, gen)
  | tempIncomingBuffer :: rest, monoBuffer, gen =>
    (ingest monoBuffer tempIncomingBuffer).bind fun monoBuffer =>
      drainTransport a rest monoBuffer
        (gen.produceFFTDataForRendering a monoBuffer (-((48 : ℕ) : D)))

/-- Second loop of `process` (lines 252-258): while the generator has a frame, take it and
generate a path from it. -/
def drainFFTData {D S : Type} [Neg D] [NatCast D] (a : AnalyzerHelpers D S)
    (fftBounds : Rectangle D) (fftSize : ℕ) (binWidth : D) :
    List (List D) → AnalyzerPathGenerator D S → AnalyzerPathGenerator D S
  | [], pg => pg
  | fftData :: rest, pg =>
    drainFFTData a fftBounds fftSize binWidth rest
      (pg.generatePath a fftData fftBounds fftSize binWidth (-((48 : ℕ) : D)))

/-- Third loop of `process` (lines 260-262): while a path is available, take it into
`leftChannelFFTPath`. -/
def drainPaths {D : Type} : List (Path D) → Path D → Path D
  | [], leftChannelFFTPath => leftChannelFFTPath
  | p :: rest, _ => drainPaths rest p

/-- `PathProducer::process(fftBounds, sampleRate)` (lines 222-263): the three loops in
order.  Each loop runs until its queue is empty, so the three queues are empty afterwards. -/
def PathProducer.process {D S : Type} [Neg D] [Div D] [NatCast D] (a : AnalyzerHelpers D S)
    (fftBounds : Rectangle D) (sampleRate : D) (pp : PathProducer D S) :
    Option (PathProducer D S) :=
  (drainTransport a pp.leftChannelFifo pp.monoBuffer pp.leftChannelFFTDataGenerator).bind
    fun drained =>
      let fftSize := a.fftSize
      let binWidth := sampleRate / (fftSize : D)
      let pg := drainFFTData a fftBounds fftSize binWidth drained.2.fftDataFifo pp.pathProducer
      some
        { leftChannelFifo := []
          monoBuffer := drained.1
          leftChannelFFTDataGenerator := { fftDataFifo := [] }
          pathProducer := { pg with pathFifo := [] }
          leftChannelFFTPath := drainPaths pg.pathFifo pp.leftChannelFFTPath }

/-! ## `ResponseCurveComponent` -/

/-- State of the `ResponseCurveComponent` that the refresh cycle reads and writes. -/
structure ResponseCurveComponent (D C S : Type) where
  parametersChanged : Bool
  monoChain : MonoChain C
  leftPathProducer : PathProducer D S
  rightPathProducer : PathProducer D S
deriving DecidableEq, Repr

/-- What the component reads from its surroundings during a call: its own size (JUCE keeps
both non-negative), `audioProcessor.getSampleRate()` and
`getChainSettings(audioProcessor.apvts)`. -/
structure Host (D : Type) where
  width : ℕ
  height : ℕ
  sampleRate : D
  chainSettings : ChainSettings D
deriving DecidableEq, Repr

/-- `ResponseCurveComponent::parameterValueChanged` (lines 218-220):
`parametersChanged.set(true)`. -/
def parameterValueChanged {D C S : Type} (s : ResponseCurveComponent D C S)
    (_parameterIndex : ℤ) (_newValue : D) : ResponseCurveComponent D C S :=
  { s with parametersChanged := true }

/-- JUCE `Atomic<bool>::compareAndSetBool(newValue, valueToCompare)`: when the value equals
`valueToCompare` it becomes `newValue` and the call returns true.  The result is the pair
(value afterwards, returned flag). -/
def compareAndSetBool (value newValue valueToCompare : Bool) : Bool × Bool :=
  if value = valueToCompare then (newValue, true) else (value, false)

/-- `ResponseCurveComponent::timerCallback` (lines 265-279).  `repaint()` only schedules a
call of paint and changes no state. -/
def timerCallback {D C S : Type} [Neg D] [Div D] [NatCast D] [IntCast D]
    (c : ChainHelpers D C) (a : AnalyzerHelpers D S) (host : Host D)
    (s : ResponseCurveComponent D C S) : Option (ResponseCurveComponent D C S) :=
  let fftBounds : Rectangle D := (getAnalysisArea host.width host.height).toFloat
  let sampleRate := host.sampleRate
  (s.leftPathProducer.process a fftBounds sampleRate).bind fun left =>
    (s.rightPathProducer.process a fftBounds sampleRate).bind fun right =>
      let s := { s with leftPathProducer := left, rightPathProducer := right }
      let cas := compareAndSetBool s.parametersChanged false true
      let s := { s with parametersChanged := cas.1 }
      if cas.2 then
        some { s with monoChain := updateChain c host.chainSettings host.sampleRate s.monoChain }
      else
        some s

/-- JUCE `jmap(sourceValue, sourceRangeMin, sourceRangeMax, targetRangeMin,
targetRangeMax)`. -/
def jmap {D : Type} [Add D] [Sub D] [Mul D] [Div D]
    (sourceValue sourceRangeMin sourceRangeMax targetRangeMin targetRangeMax : D) : D :=
  targetRangeMin +
    ((targetRangeMax - targetRangeMin) * (sourceValue - sourceRangeMin)) /
      (sourceRangeMax - sourceRangeMin)

/-- The vertical map of paint (lines 356-361):
`jmap(input, -24.0, 24.0, responseArea.getBottom(), responseArea.getY())`. -/
def paintMap {D : Type} [Add D] [Sub D] [Mul D] [Div D] [Neg D] [NatCast D] [IntCast D]
    (responseArea : Rectangle ℤ) (input : D) : D :=
  let outputMin : D := ((responseArea.getBottom : ℤ) : D)
  let outputMax : D := ((responseArea.y : ℤ) : D)
  jmap input (-((24 : ℕ) : D)) ((24 : ℕ) : D) outputMin outputMax

/-- The response curve of paint (lines 354-367): the sub-path starts at
`(responseArea.getX(), map(mags.front()))`, then for `i = 1 .. mags.size()-1` a line goes to
`(responseArea.getX() + i, map(mags[i]))`; the sum is computed in `size_t`.  Reading
`mags.front()` of an empty array, or an element outside it, gives no result. -/
def buildResponseCurve {D : Type} [Add D] [Sub D] [Mul D] [Div D] [Neg D] [NatCast D]
    [IntCast D] (responseArea : Rectangle ℤ) (mags : List D) : Option (Path D) :=
  (mags.head?).bind fun front =>
    let responseCurve : Path D :=
      [PathElement.startNewSubPath ((responseArea.x : ℤ) : D) (paintMap responseArea front)]
    (List.range' 1 (mags.length - 1)).foldlM
      (fun (responseCurve : Path D) (i : ℕ) =>
        (readAt mags (i : ℤ)).bind fun mag =>
          some (responseCurve ++
            [PathElement.lineTo ((((responseArea.x + (i : ℤ)) % 2 ^ 64 : ℤ)) : D)
              (paintMap responseArea mag)]))
      responseCurve

/-- The filter-response curve paint builds for an analysis area (lines 308-367): the
magnitude array for `w = responseArea.getWidth()` columns, then the curve. -/
def paintResponseCurve {D C : Type} [Zero D] [One D] [Add D] [Sub D] [Mul D] [Div D] [Neg D]
    [NatCast D] [IntCast D] (m : PaintMath D C) (monoChain : MonoChain C) (sampleRate : D)
    (responseArea : Rectangle ℤ) : Option (Path D) :=
  (paintMags m monoChain sampleRate responseArea.w.toNat).bind fun mags =>
    buildResponseCurve responseArea mags

/-- The three curves that paint strokes. -/
structure Painted (D : Type) where
  responseCurve : Path D
  leftChannelFFTPath : Path D
  rightChannelFFTPath : Path D
deriving DecidableEq, Repr

/-- `ResponseCurveComponent::paint` (lines 300-390), reduced to the curves it strokes: the
response curve and the two spectrum paths translated by
`(responseArea.getX(), responseArea.getY() - 8)`. -/
def paint {D C S : Type} [Zero D] [One D] [Add D] [Sub D] [Mul D] [Div D] [Neg D]
    [NatCast D] [IntCast D] (m : PaintMath D C) (host : Host D)
    (s : ResponseCurveComponent D C S) : Option (Painted D) :=
  let responseArea := getAnalysisArea host.width host.height
  let sampleRate := host.sampleRate
  (paintResponseCurve m s.monoChain sampleRate responseArea).bind fun responseCurve =>
    let leftChannelFFTPath := s.leftPathProducer.leftChannelFFTPath.translated
      ((responseArea.x : ℤ) : D) (((responseArea.y - 8 : ℤ)) : D)
    let rightChannelFFTPath := s.rightPathProducer.leftChannelFFTPath.translated
      ((responseArea.x : ℤ) : D) (((responseArea.y - 8 : ℤ)) : D)
    some { responseCurve := responseCurve
           leftChannelFFTPath := leftChannelFFTPath
           rightChannelFFTPath := rightChannelFFTPath }

/-! ## Event sequences -/

/-- What can happen to the component between and at refresh ticks: a parameter-change
notification, a timer tick, or the audio thread having run, after which the complete
buffers available on the two transports are `left` and `right`. -/
inductive Event (D : Type) where
  | parameterValueChanged (parameterIndex : ℤ) (newValue : D)
  | timerCallback (host : Host D)
  | audioThread (left right : List (List D))

/-- One event applied to the component. -/
def step {D C S : Type} [Neg D] [Div D] [NatCast D] [IntCast D]
    (c : ChainHelpers D C) (a : AnalyzerHelpers D S) (s : ResponseCurveComponent D C S) :
    Event D → Option (ResponseCurveComponent D C S)
  | .parameterValueChanged parameterIndex newValue =>
    some (parameterValueChanged s parameterIndex newValue)
  | .timerCallback host => timerCallback c a host s
  | .audioThread left right =>
    some { s with
      leftPathProducer := { s.leftPathProducer with leftChannelFifo := left }
      rightPathProducer := { s.rightPathProducer with leftChannelFifo := right } }

/-- A sequence of events applied in order. -/
def run {D C S : Type} [Neg D] [Div D] [NatCast D] [IntCast D]
    (c : ChainHelpers D C) (a : AnalyzerHelpers D S) (s : ResponseCurveComponent D C S)
    (events : List (Event D)) : Option (ResponseCurveComponent D C S) :=
  events.foldlM (step c a) s

/-! ## `ResponseCurveComponent::resized`: the horizontal grid lines -/

/-- The gains of the horizontal grid (lines 427-429): `Array<float> gains {-24, -12, 0, 12,
24}`, integers converted to the numeric type. -/
def gains {D : Type} [IntCast D] : List D :=
  [((-24 : ℤ) : D), ((-12 : ℤ) : D), ((0 : ℤ) : D), ((12 : ℤ) : D), ((24 : ℤ) : D)]

/-- The value `normY` of resized (line 432) for a gain:
`jmap(gDb, -24.f, 24.f, float(bottom), float(top))` with `top = renderArea.getY()` and
`bottom = renderArea.getBottom()`. -/
def gridLineY {D : Type} [Add D] [Sub D] [Mul D] [Div D] [Neg D] [NatCast D] [IntCast D]
    (renderArea : Rectangle ℤ) (gDb : D) : D :=
  let top := renderArea.y
  let bottom := renderArea.getBottom
  jmap gDb (-((24 : ℕ) : D)) ((24 : ℕ) : D) ((bottom : ℤ) : D) ((top : ℤ) : D)

/-- The horizontal grid lines resized draws (lines 406-411 and 426-436): for each gain
`g.drawHorizontalLine(normY, left, right)` over the analysis area.  `drawHorizontalLine`
takes `int y`; `toInt` is the conversion of `normY` to `int`.  Each line is given as
(y, left, right). -/
def resizedHorizontalLines {D : Type} [Add D] [Sub D] [Mul D] [Div D] [Neg D] [NatCast D]
    [IntCast D] (toInt : D → ℤ) (width height : ℕ) : List (ℤ × D × D) :=
  let renderArea := getAnalysisArea width height
  let left := renderArea.x
  let right := renderArea.getRight
  (gains : List D).map fun gDb =>
    let normY := gridLineY renderArea gDb
    (toInt normY, ((left : ℤ) : D), ((right : ℤ) : D))

/-! ## `RotarySliderWithLabels::getDisplayString` -/

/-- What the `dynamic_cast`s of getDisplayString find in `param`: an
`AudioParameterChoice` (with its current choice name), an `AudioParameterFloat`, or
neither. -/
inductive ParameterKind where
  | choice (currentChoiceName : String)
  | float
  | other
deriving DecidableEq, Repr

/-- The members of `RotarySliderWithLabels` that getDisplayString reads: `param`, `suffix`
and the slider value `getValue()`, a `double` (type `V`). -/
structure RotarySliderWithLabels (V : Type) where
  param : ParameterKind
  suffix : String
  value : V

/-- JUCE `String::isNotEmpty()`. -/
def isNotEmpty (s : String) : Bool := s != ""

/-- `RotarySliderWithLabels::getDisplayString` (lines 160-190).  `toFloat` is the narrowing
of `float val = getValue();` (line 168) from `double` (`V`) to `float` (`D`); the comparison
with `999.f`, the division and the rendering are on the narrowed value.  `floatToString` is
the JUCE constructor `String(float value, int numberOfDecimalPlaces)`; `str << x`
appends. -/
def getDisplayString {V D : Type} [Div D] [NatCast D] [LT D]
    [DecidableRel (fun a b : D => a < b)] (toFloat : V → D) (floatToString : D → ℤ → String)
    (slider : RotarySliderWithLabels V) : String :=
  match slider.param with
  | .choice currentChoiceName => currentChoiceName
  | param =>
    let str : String := ""
    let addK : Bool := false
    let r : String × Bool :=
      match param with
      | .float =>
        let val : D := toFloat slider.value
        let r : D × Bool :=
          if ((999 : ℕ) : D) < val then (val / ((1000 : ℕ) : D), true) else (val, addK)
        (floatToString r.1 (if r.2 then 2 else 0), r.2)
      | _ => (str, addK)
    let str := r.1
    let addK := r.2
    if isNotEmpty slider.suffix then
      let str := str ++ " "
      let str := if addK then str ++ "k" else str
      str ++ slider.suffix
    else
      str

/-- The text of a frequency label in resized (lines 444-458): a frequency above `999.f` is
divided by 1000 and `k` is appended after the number, then `Hz`.  `floatToText` is the JUCE
`str << f` for a `float`. -/
def frequencyLabel {D : Type} [Div D] [NatCast D] [LT D]
    [DecidableRel (fun a b : D => a < b)] (floatToText : D → String) (f : D) : String :=
  let addK : Bool := false
  let str : String := ""
  let r : D × Bool := if ((999 : ℕ) : D) < f then (f / ((1000 : ℕ) : D), true) else (f, addK)
  let f := r.1
  let addK := r.2
  let str := str ++ floatToText f
  let str := if addK then str ++ "k" else str
  str ++ "Hz"

/-! ## Specification-side definitions -/

/-- Spec side: the product of a list of factors taken from left to right starting at 1.
In a monoid this is `List.prod`; the left-to-right form needs no law of the
multiplication. -/
def orderedProduct {D : Type} [Mul D] [One D] (factors : List D) : D :=
  factors.foldl (· * ·) 1

/-- Spec side: the non-bypassed sections of a cut stage, sections 0 to 3 in order. -/
def CutFilter.activeSections {C : Type} (cut : CutFilter C) : List (Filter C) :=
  (if cut.bypassed0 then [] else [cut.f0]) ++ (if cut.bypassed1 then [] else [cut.f1]) ++
    (if cut.bypassed2 then [] else [cut.f2]) ++ (if cut.bypassed3 then [] else [cut.f3])

/-- Spec side: "every non-bypassed section in every non-bypassed stage": the peak section,
then the active low-cut sections, then the active high-cut sections. -/
def MonoChain.activeSections {C : Type} (chain : MonoChain C) : List (Filter C) :=
  (if chain.peakBypassed then [] else [chain.peak]) ++
    (if chain.lowCutBypassed then [] else chain.lowCut.activeSections) ++
    (if chain.highCutBypassed then [] else chain.highCut.activeSections)

/-- Spec side: the window after a block, "shifts left by the block length and appends the
new samples at the tail". -/
def shiftAppend {α : Type} (window block : List α) : List α :=
  window.drop block.length ++ block

/-- Spec side: the newest `n` samples of a sample sequence. -/
def newest {α : Type} (n : ℕ) (samples : List α) : List α :=
  samples.drop (samples.length - n)

/-- Spec side: the successive windows after each block of a sequence of blocks. -/
def windowsAfter {α : Type} (window : List α) : List (List α) → List (List α)
  | [] => []
  | block :: rest => shiftAppend window block :: windowsAfter (shiftAppend window block) rest

/-- Spec side: is the event a timer tick. -/
def Event.isTick {D : Type} : Event D → Bool
  | .timerCallback _ => true
  | _ => false

/-- Spec side: is the event a parameter-change notification. -/
def Event.isNotification {D : Type} : Event D → Bool
  | .parameterValueChanged _ _ => true
  | _ => false

/-- Spec side: "at least one notification arrived since the previous tick": among the
events after the last tick of the history (all of it when there is no tick) there is a
notification. -/
def notifiedSinceLastTick {D : Type} (history : List (Event D)) : Bool :=
  (history.reverse.takeWhile (fun e => !e.isTick)).any Event.isNotification

/-! ## Concrete data for the witnesses -/

/-- A cut stage whose four sections have gains 2, 3, 5, 7 and none bypassed. -/
def demoCut : CutFilter ℤ :=
  { f0 := ⟨2⟩, f1 := ⟨3⟩, f2 := ⟨5⟩, f3 := ⟨7⟩,
    bypassed0 := false, bypassed1 := false, bypassed2 := false, bypassed3 := false }

/-- A chain with every stage and section active. -/
def demoChain : MonoChain ℤ :=
  { lowCut := demoCut, peak := ⟨11⟩, highCut := demoCut,
    lowCutBypassed := false, peakBypassed := false, highCutBypassed := false }

/-- Settings with the three stages bypassed. -/
def demoBypassedSettings : ChainSettings ℤ :=
  { peakFreq := 750, peakGainInDecibels := 6, peakQuality := 1, lowCutFreq := 20,
    highCutFreq := 20000, lowCutSlope := Slope.Slope_12, highCutSlope := Slope.Slope_48,
    lowCutBypassed := true, peakBypassed := true, highCutBypassed := true }

/-- Helpers that replace coefficients and enable every section of a cut stage. -/
def demoHelpers : ChainHelpers ℤ ℤ :=
  { makePeakFilter := fun s _ => s.peakGainInDecibels
    makeLowCutFilter := fun s _ => [s.lowCutFreq]
    makeHighCutFilter := fun s _ => [s.highCutFreq]
    updateCoefficients := fun _ c => c
    updateCutFilter := fun cut _ _ =>
      { cut with bypassed0 := false, bypassed1 := false, bypassed2 := false,
                 bypassed3 := false } }

/-- A stand-in numeric library: a section's response is its coefficient, decibels are
twice the gain, `log10` is the identity and `pow a b = a + b`. -/
def demoMath : PaintMath ℤ ℤ :=
  { getMagnitudeForFrequency := fun c _ _ => c
    gainToDecibels := fun g => 2 * g
    log10 := fun x => x
    pow := fun a b => a + b }

/-- Analyzer helpers that record: a frame is the window it was computed from, both queues
are unbounded, and the smoothed state is the list of frames consumed so far. -/
def recordingAnalyzer : AnalyzerHelpers ℤ (List (List ℤ)) :=
  { fftSize := 2
    computeFFTData := fun window _ => window
    pushFFTData := fun queue frame => queue ++ [frame]
    renderPath := fun consumed frame _ _ _ _ =>
      (consumed ++ [frame], frame.map (fun v => PathElement.lineTo v v))
    pushPath := fun queue path => queue ++ [path] }

/-- A producer with a window of two samples, idle queues and the given blocks waiting on
the transport. -/
def demoProducer (blocks : List (List ℤ)) : PathProducer ℤ (List (List ℤ)) :=
  { leftChannelFifo := blocks
    monoBuffer := [0, 0]
    leftChannelFFTDataGenerator := { fftDataFifo := [] }
    pathProducer := { smoothed := [], pathFifo := [] }
    leftChannelFFTPath := [] }

/-- A component with a pending-free state: flag clear, the demo chain, and the given blocks
waiting on the two transports. -/
def demoComponent (left right : List (List ℤ)) :
    ResponseCurveComponent ℤ ℤ (List (List ℤ)) :=
  { parametersChanged := false
    monoChain := demoChain
    leftPathProducer := demoProducer left
    rightPathProducer := demoProducer right }

/-- A host with a 600 by 120 component at 44100 Hz and the fully bypassed settings. -/
def demoHost : Host ℤ :=
  { width := 600, height := 120, sampleRate := 44100, chainSettings := demoBypassedSettings }

/-- The producer `demoProducer [[1], [2]]` after one call of process with the recording
helpers: both blocks ingested, both frames consumed, the last path stored. -/
def demoLeftAfterTick : PathProducer ℤ (List (List ℤ)) :=
  { leftChannelFifo := []
    monoBuffer := [1, 2]
    leftChannelFFTDataGenerator := { fftDataFifo := [] }
    pathProducer := { smoothed := [[0, 1], [1, 2]], pathFifo := [] }
    leftChannelFFTPath := [PathElement.lineTo 1 1, PathElement.lineTo 2 2] }

/-- The demo component (blocks `[1]`, `[2]` on the left transport, none on the right) after
one timer tick. -/
def demoAfterTick : ResponseCurveComponent ℤ ℤ (List (List ℤ)) :=
  { parametersChanged := false
    monoChain := demoChain
    leftPathProducer := demoLeftAfterTick
    rightPathProducer := demoProducer [] }

/-- A history for the demo component: a tick, then a notification, then the audio thread
delivering a block on the left transport. -/
def demoHistory : List (Event ℤ) :=
  [Event.timerCallback demoHost, Event.parameterValueChanged 3 5, Event.audioThread [[7]] []]

/-- The demo component (blocks `[1]`, `[2]` on the left transport) after `demoHistory`. -/
def demoNow : ResponseCurveComponent ℤ ℤ (List (List ℤ)) :=
  { parametersChanged := true
    monoChain := demoChain
    leftPathProducer := { demoLeftAfterTick with leftChannelFifo := [[7]] }
    rightPathProducer := demoProducer [] }

/-- A stand-in for `String(float, int)` on integers: the digits of the value, followed by
`.00` when two decimal places are asked for. -/
def demoFloatToString (v : ℤ) (numberOfDecimalPlaces : ℤ) : String :=
  Nat.repr v.toNat ++ (if numberOfDecimalPlaces = 2 then ".00" else "")

/-- A stand-in for the narrowing from `double` to `float`: the slider value is counted in
thousandths and the narrowed value in units, so the narrowing drops what is below one
unit. -/
def demoToFloat (thousandths : ℤ) : ℤ := thousandths / 1000

/-- A stand-in for `str << f` on integers: the digits of the value. -/
def demoFloatToText (v : ℤ) : String := Nat.repr v.toNat

/-! ## Lemmas on buffers -/

theorem writeAt_natCast {α : Type} (buf : List α) (i : ℕ) (v : α) (h : i < buf.length) :
    writeAt buf (i : ℤ) v = some (buf.set i v) := by
  simp [writeAt, h]

theorem set_map_append_drop {α : Type} (f : ℕ → α) (l : List α) (k : ℕ) (hk : k < l.length) :
    ((List.range k).map f ++ l.drop k).set k (f k) =
      (List.range (k + 1)).map f ++ l.drop (k + 1) := by
  have hlen : ((List.range k).map f).length = k := by simp
  rw [List.set_append_right _ _ (by simp), hlen, Nat.sub_self]
  rw [List.range_succ, List.map_append, List.append_assoc]
  congr 1
  rw [List.drop_eq_getElem_cons hk, List.set_cons_zero]
  simp

/-- A loop `for i < k: buf[i] = f i` over a buffer of at least `k` elements never leaves the
buffer and fills its first `k` elements. -/
theorem foldlM_writeAt_range {α : Type} (f : ℕ → α) (l : List α) (k : ℕ) (hk : k ≤ l.length) :
    (List.range k).foldlM (fun (b : List α) (i : ℕ) => writeAt b (i : ℤ) (f i)) l =
      some ((List.range k).map f ++ l.drop k) := by
  induction k with
  | zero => simp
  | succ k ih =>
    have hk2 : k < l.length := hk
    rw [List.range_succ, List.foldlM_append, ih (Nat.le_of_lt hk2)]
    simp only [List.foldlM_cons, List.foldlM_nil, Option.some_bind, Option.bind_eq_bind]
    rw [writeAt_natCast _ _ _ (by simp; omega)]
    simp only [Option.some_bind, Option.pure_def, Option.bind_eq_bind]
    rw [set_map_append_drop f l k hk2, List.range_succ]

theorem readAt_natCast {α : Type} (buf : List α) (i : ℕ) : readAt buf (i : ℤ) = buf[i]? := by
  simp [readAt]

/-- A loop over `0 .. n-1` whose every step takes `inv k` to `inv (k + 1)` completes with
`inv n`. -/
theorem foldlM_range_invariant {β : Type} (body : β → ℕ → Option β) (inv : ℕ → β) (n : ℕ)
    (h : ∀ k, k < n → body (inv k) k = some (inv (k + 1))) :
    (List.range n).foldlM body (inv 0) = some (inv n) := by
  induction n with
  | zero => simp
  | succ n ih =>
    rw [List.range_succ, List.foldlM_append, ih (fun k hk => h k (Nat.lt_succ_of_lt hk))]
    simp [h n (Nat.lt_succ_self n)]

theorem set_prefix_append_drop {α : Type} (p l : List α) (k : ℕ) (v : α) (hk : k < l.length) :
    (p ++ l.drop k).set p.length v = (p ++ [v]) ++ l.drop (k + 1) := by
  rw [List.set_append_right _ _ (le_refl _), Nat.sub_self, List.drop_eq_getElem_cons hk,
    List.set_cons_zero]
  simp

/-- The first copy of the ingest step moves the samples from position `s` on to the front
and leaves the last `s` positions as they were. -/
theorem copyWithin_shift {α : Type} (buf : List α) (s : ℕ) (hs : s ≤ buf.length) :
    copyWithin buf 0 (s : ℤ) ((buf.length : ℤ) - (s : ℤ)) =
      some (buf.drop s ++ buf.drop (buf.length - s)) := by
  unfold copyWithin
  have hn : ((buf.length : ℤ) - (s : ℤ)).toNat = buf.length - s := by omega
  rw [if_neg (by omega), hn]
  have h := foldlM_range_invariant
    (fun (b : List α) (k : ℕ) =>
        (readAt b ((s : ℤ) + k)).bind (fun v => writeAt b (0 + (k : ℤ)) v))
    (fun k => (buf.drop s).take k ++ buf.drop k) (buf.length - s) ?_
  · have hfull : (buf.drop s).take (buf.length - s) = buf.drop s :=
      List.take_of_length_le (by simp)
    rw [hfull] at h
    simpa using h
  · intro k hk
    have hks : k + s < buf.length := by omega
    have hlen : ((buf.drop s).take k).length = k := by
      simp; omega
    have e1 : ((s : ℤ) + (k : ℤ)) = ((s + k : ℕ) : ℤ) := by push_cast; ring
    simp only [e1, zero_add, readAt_natCast]
    have hr : ((buf.drop s).take k ++ buf.drop k)[s + k]? = some buf[k + s] := by
      rw [List.getElem?_append_right (by omega), hlen, List.getElem?_drop]
      have : k + (s + k - k) = k + s := by omega
      rw [this, List.getElem?_eq_getElem hks]
    rw [hr, Option.some_bind, writeAt_natCast _ _ _ (by simp; omega)]
    congr 1
    have hset := set_prefix_append_drop ((buf.drop s).take k) buf k buf[k + s] (by omega)
    rw [hlen] at hset
    rw [hset]
    congr 1
    rw [List.take_succ]
    congr 1
    have hsk : s + k < buf.length := by omega
    simp only [List.getElem?_drop, List.getElem?_eq_getElem hsk, Option.toList_some]
    congr 2
    omega

/-- The second copy of the ingest step overwrites the last `src.length` positions with the
block. -/
theorem copyFrom_tail {α : Type} (dest src : List α) (hs : src.length ≤ dest.length) :
    copyFrom dest ((dest.length : ℤ) - (src.length : ℤ)) src 0 (src.length : ℤ) =
      some (dest.take (dest.length - src.length) ++ src) := by
  unfold copyFrom
  rw [if_neg (by omega), Int.toNat_ofNat]
  have h := foldlM_range_invariant
    (fun (b : List α) (k : ℕ) =>
        (readAt src (0 + (k : ℤ))).bind
          (fun v => writeAt b ((dest.length : ℤ) - (src.length : ℤ) + (k : ℤ)) v))
    (fun k => (dest.take (dest.length - src.length) ++ src.take k) ++
      dest.drop (dest.length - src.length + k)) src.length ?_
  · have e : dest.length - src.length + src.length = dest.length := by omega
    simp only [List.take_zero, List.append_nil, Nat.add_zero, List.take_append_drop, e,
      List.take_length, List.drop_length] at h
    simpa using h
  · intro k hk
    have e1 : ((dest.length : ℤ) - (src.length : ℤ) + (k : ℤ)) =
        ((dest.length - src.length + k : ℕ) : ℤ) := by omega
    simp only [e1, zero_add, readAt_natCast, List.getElem?_eq_getElem hk, Option.some_bind]
    have hlen : (dest.take (dest.length - src.length) ++ src.take k).length =
        dest.length - src.length + k := by
      simp; omega
    rw [writeAt_natCast _ _ _ (by simp; omega)]
    congr 1
    have hset := set_prefix_append_drop (dest.take (dest.length - src.length) ++ src.take k)
      dest (dest.length - src.length + k) src[k] (by omega)
    rw [hlen] at hset
    rw [hset, List.take_succ, List.getElem?_eq_getElem hk]
    simp [Nat.add_assoc]

/-! ## The rolling window -/

/-- A block no longer than the window is ingested without leaving the buffers, and the
window is shifted left by the block length with the block appended. -/
theorem ingest_eq_shiftAppend {α : Type} (monoBuffer block : List α)
    (hs : block.length ≤ monoBuffer.length) :
    ingest monoBuffer block = some (shiftAppend monoBuffer block) := by
  unfold ingest shiftAppend
  simp only [copyWithin_shift monoBuffer block.length hs, Option.some_bind]
  have hlen : (monoBuffer.drop block.length ++
      monoBuffer.drop (monoBuffer.length - block.length)).length = monoBuffer.length := by
    rw [List.length_append, List.length_drop, List.length_drop]
    omega
  have h := copyFrom_tail (monoBuffer.drop block.length ++
      monoBuffer.drop (monoBuffer.length - block.length)) block (by omega)
  rw [hlen] at h
  rw [h]
  rw [List.take_append_of_le_length (by simp), List.take_of_length_le (by simp)]

/-- A block longer than the window makes the first copy run with a negative count. -/
theorem ingest_oversized {α : Type} (monoBuffer block : List α)
    (hs : monoBuffer.length < block.length) : ingest monoBuffer block = none := by
  unfold ingest copyWithin
  simp only
  rw [if_pos (by omega)]
  rfl

theorem length_shiftAppend {α : Type} (window block : List α)
    (hs : block.length ≤ window.length) :
    (shiftAppend window block).length = window.length := by
  unfold shiftAppend
  rw [List.length_append, List.length_drop]
  omega

theorem shiftAppend_eq_newest {α : Type} (window block : List α)
    (hs : block.length ≤ window.length) :
    shiftAppend window block = newest window.length (window ++ block) := by
  unfold shiftAppend newest
  rw [List.length_append, Nat.add_sub_cancel_left, List.drop_append_of_le_length hs]

/-- Ingesting a sequence of fitting blocks leaves the newest samples of the old window
followed by all the blocks. -/
theorem foldl_shiftAppend_eq_newest {α : Type} (blocks : List (List α)) (window : List α)
    (hfit : ∀ b ∈ blocks, b.length ≤ window.length) :
    blocks.foldl shiftAppend window = newest window.length (window ++ blocks.flatten) := by
  induction blocks generalizing window with
  | nil => simp [newest]
  | cons b rest ih =>
    have hb : b.length ≤ window.length := hfit b (List.mem_cons_self _ _)
    have hlen := length_shiftAppend window b hb
    rw [List.foldl_cons, ih (shiftAppend window b)
      (fun c hc => by rw [hlen]; exact hfit c (List.mem_cons_of_mem _ hc)), hlen]
    unfold newest shiftAppend
    simp only [List.length_append, List.length_drop, List.flatten_cons]
    have e1 : window.length - b.length + b.length + rest.flatten.length - window.length =
        rest.flatten.length := by omega
    have e2 : window.length + (b.length + rest.flatten.length) - window.length =
        b.length + rest.flatten.length := by omega
    rw [e1, e2, ← List.drop_drop, List.drop_append_of_le_length hb, List.append_assoc]

theorem length_foldl_shiftAppend {α : Type} (blocks : List (List α)) (window : List α)
    (hfit : ∀ b ∈ blocks, b.length ≤ window.length) :
    (blocks.foldl shiftAppend window).length = window.length := by
  induction blocks generalizing window with
  | nil => rfl
  | cons b rest ih =>
    have hb : b.length ≤ window.length := hfit b (List.mem_cons_self _ _)
    have hlen := length_shiftAppend window b hb
    rw [List.foldl_cons, ih (shiftAppend window b)
      (fun c hc => by rw [hlen]; exact hfit c (List.mem_cons_of_mem _ hc)), hlen]

theorem length_windowsAfter {α : Type} (blocks : List (List α)) (window : List α) :
    (windowsAfter window blocks).length = blocks.length := by
  induction blocks generalizing window with
  | nil => rfl
  | cons b rest ih => simp [windowsAfter, ih]

theorem getLast?_windowsAfter {α : Type} (blocks : List (List α)) (window : List α)
    (hne : blocks ≠ []) :
    (windowsAfter window blocks).getLast? = some (blocks.foldl shiftAppend window) := by
  induction blocks generalizing window with
  | nil => exact absurd rfl hne
  | cons b rest ih =>
    cases rest with
    | nil => simp [windowsAfter]
    | cons c rest2 =>
      have h := ih (shiftAppend window b) (by simp)
      simp only [windowsAfter, List.foldl_cons] at h ⊢
      rw [List.getLast?_cons_cons]
      exact h

/-- The first loop of process on fitting blocks: it completes, the window has taken every
block in order, and `produceFFTDataForRendering` has been applied to the generator once for
each block, on the window as it stood after that block. -/
theorem drainTransport_eq {D S : Type} [Neg D] [NatCast D] (a : AnalyzerHelpers D S)
    (blocks : List (List D)) (monoBuffer : List D) (gen : FFTDataGenerator D)
    (hfit : ∀ b ∈ blocks, b.length ≤ monoBuffer.length) :
    drainTransport a blocks monoBuffer gen =
      some (blocks.foldl shiftAppend monoBuffer,
        (windowsAfter monoBuffer blocks).foldl
          (fun g window => g.produceFFTDataForRendering a window (-((48 : ℕ) : D))) gen) := by
  induction blocks generalizing monoBuffer gen with
  | nil => rfl
  | cons b rest ih =>
    have hb : b.length ≤ monoBuffer.length := hfit b (List.mem_cons_self _ _)
    have hlen := length_shiftAppend monoBuffer b hb
    simp only [drainTransport, ingest_eq_shiftAppend monoBuffer b hb, Option.some_bind,
      windowsAfter, List.foldl_cons]
    exact ih (shiftAppend monoBuffer b) _
      (fun c hc => by rw [hlen]; exact hfit c (List.mem_cons_of_mem _ hc))

/-- The result of process in terms of its three loops, when the blocks fit the window. -/
theorem process_eq {D S : Type} [Neg D] [Div D] [NatCast D] (a : AnalyzerHelpers D S)
    (fftBounds : Rectangle D) (sampleRate : D) (pp : PathProducer D S)
    (hfit : ∀ b ∈ pp.leftChannelFifo, b.length ≤ pp.monoBuffer.length) :
    ∃ after : PathProducer D S, pp.process a fftBounds sampleRate = some after ∧
      after.monoBuffer = pp.leftChannelFifo.foldl shiftAppend pp.monoBuffer ∧
      after.leftChannelFifo = [] ∧ after.leftChannelFFTDataGenerator.fftDataFifo = [] ∧
      after.pathProducer.pathFifo = [] := by
  unfold PathProducer.process
  rw [drainTransport_eq a _ _ _ hfit]
  exact ⟨_, rfl, rfl, rfl, rfl, rfl⟩

/-- With nothing waiting in any of its three queues, process changes nothing. -/
theorem process_idle {D S : Type} [Neg D] [Div D] [NatCast D] (a : AnalyzerHelpers D S)
    (fftBounds : Rectangle D) (sampleRate : D) (pp : PathProducer D S)
    (hFifo : pp.leftChannelFifo = []) (hFrames : pp.leftChannelFFTDataGenerator.fftDataFifo = [])
    (hPaths : pp.pathProducer.pathFifo = []) :
    pp.process a fftBounds sampleRate = some pp := by
  obtain ⟨fifo, mono, ⟨frames⟩, ⟨smoothed, paths⟩, path⟩ := pp
  simp only at hFifo hFrames hPaths
  subst hFifo hFrames hPaths
  rfl

/-! ## Claims on the rolling window and on process -/

/-- C3 at the failing input: a block of 3 samples drained into a window of 2.  The
count of the first copy, `getNumSamples() - size`, is -1, the copy has no result, and
neither has the ingest step nor the call of process that drains the block, where the claim
asks for a window of length 2 holding the newest 2 samples, `[4, 5]`. -/
theorem ingest_oversized_block_faults :
    ((([0, 0] : List ℤ).length : ℤ) - (([3, 4, 5] : List ℤ).length : ℤ) = -1) ∧
    copyWithin ([0, 0] : List ℤ) 0 3 (-1) = none ∧
    ingest ([0, 0] : List ℤ) [3, 4, 5] = none ∧
    (demoProducer [[3, 4, 5]]).process recordingAnalyzer ⟨0, 0, 0, 0⟩ 44100 = none ∧
    newest 2 (([0, 0] : List ℤ) ++ [3, 4, 5]) = [4, 5] := by
  decide

/-- For every window of length N and every drained block of length s ≤ N, the ingest step
of process completes, leaves the window length equal to N, and the window equal to the
newest N samples of (old window followed by the block), which is the old window with its
first s samples dropped followed by the block. -/
theorem ingest_keeps_newest_samples {α : Type} (window block : List α)
    (hs : block.length ≤ window.length) :
    ∃ after : List α, ingest window block = some after ∧ after.length = window.length ∧
      after = newest window.length (window ++ block) ∧
      after = window.drop block.length ++ block :=
  ⟨shiftAppend window block, ingest_eq_shiftAppend window block hs,
    length_shiftAppend window block hs, shiftAppend_eq_newest window block hs, rfl⟩

/-- An instance of the fitting case: a window of five samples and a block of two. -/
theorem ingest_keeps_newest_samples_witness :
    ([6, 7] : List ℤ).length ≤ ([1, 2, 3, 4, 5] : List ℤ).length ∧
    ∃ after : List ℤ, ingest [1, 2, 3, 4, 5] [6, 7] = some after ∧
      after.length = ([1, 2, 3, 4, 5] : List ℤ).length ∧
      after = newest ([1, 2, 3, 4, 5] : List ℤ).length ([1, 2, 3, 4, 5] ++ [6, 7]) ∧
      after = ([1, 2, 3, 4, 5] : List ℤ).drop ([6, 7] : List ℤ).length ++ [6, 7] :=
  ⟨by decide, ingest_keeps_newest_samples [1, 2, 3, 4, 5] [6, 7] (by decide)⟩

/-- C4: for every window length N and every sequence of blocks whose lengths sum to N,
process completes and afterwards the rolling window is the concatenation of the blocks in
order, whatever the window held before. -/
theorem process_window_is_concatenation {D S : Type} [Neg D] [Div D] [NatCast D]
    (a : AnalyzerHelpers D S) (fftBounds : Rectangle D) (sampleRate : D)
    (pp : PathProducer D S)
    (hsum : (pp.leftChannelFifo.map List.length).sum = pp.monoBuffer.length) :
    ∃ after : PathProducer D S, pp.process a fftBounds sampleRate = some after ∧
      after.monoBuffer = pp.leftChannelFifo.flatten := by
  have hfit : ∀ b ∈ pp.leftChannelFifo, b.length ≤ pp.monoBuffer.length := by
    intro b hb
    rw [← hsum]
    exact List.le_sum_of_mem (List.mem_map_of_mem _ hb)
  obtain ⟨after, hrun, hmono, -⟩ := process_eq a fftBounds sampleRate pp hfit
  refine ⟨after, hrun, ?_⟩
  rw [hmono, foldl_shiftAppend_eq_newest _ _ hfit]
  unfold newest
  rw [List.length_append, Nat.add_sub_cancel_left, List.length_flatten, hsum,
    List.drop_left]

/-- Witness for C4: blocks of one sample each filling a window of two. -/
theorem process_window_is_concatenation_witness :
    (((demoProducer [[1], [2]]).leftChannelFifo.map List.length).sum =
      (demoProducer [[1], [2]]).monoBuffer.length) ∧
    ∃ after : PathProducer ℤ (List (List ℤ)),
      (demoProducer [[1], [2]]).process recordingAnalyzer ⟨0, 0, 0, 0⟩ 44100 = some after ∧
      after.monoBuffer = (demoProducer [[1], [2]]).leftChannelFifo.flatten :=
  ⟨by decide,
    process_window_is_concatenation recordingAnalyzer ⟨0, 0, 0, 0⟩ 44100
      (demoProducer [[1], [2]]) (by decide)⟩

/-- C5, as stated, fails: with the recording helpers (the smoothed state lists the frames
consumed) one call of process that drains two blocks produces two transform frames, not
one. -/
theorem process_frames_per_cycle_counterexample :
    ¬ (((demoProducer [[1], [2]]).process recordingAnalyzer ⟨0, 0, 0, 0⟩ 44100).map
        (fun after => after.pathProducer.smoothed.length) = some 1) := by
  decide

/-- C5, amended: in one call of process, `produceFFTDataForRendering` is triggered once for
every block drained (so as many times as there are blocks, and not at all when there is
none), each time on the window as it stands after ingesting that block; the last trigger
sees the final window, which holds the most recent samples. -/
theorem process_produces_one_frame_per_block {D S : Type} [Neg D] [NatCast D]
    (a : AnalyzerHelpers D S) (blocks : List (List D)) (monoBuffer : List D)
    (gen : FFTDataGenerator D) (hfit : ∀ b ∈ blocks, b.length ≤ monoBuffer.length) :
    drainTransport a blocks monoBuffer gen =
      some (blocks.foldl shiftAppend monoBuffer,
        (windowsAfter monoBuffer blocks).foldl
          (fun g window => g.produceFFTDataForRendering a window (-((48 : ℕ) : D))) gen) ∧
    (windowsAfter monoBuffer blocks).length = blocks.length ∧
    (blocks ≠ [] →
      (windowsAfter monoBuffer blocks).getLast? = some (blocks.foldl shiftAppend monoBuffer)) ∧
    blocks.foldl shiftAppend monoBuffer =
      newest monoBuffer.length (monoBuffer ++ blocks.flatten) :=
  ⟨drainTransport_eq a blocks monoBuffer gen hfit, length_windowsAfter blocks monoBuffer,
    getLast?_windowsAfter blocks monoBuffer, foldl_shiftAppend_eq_newest blocks monoBuffer hfit⟩

/-- Witness for C5: three blocks drained into a window of two samples. -/
theorem process_produces_one_frame_per_block_witness :
    (∀ b ∈ ([[1], [2, 3], [4]] : List (List ℤ)), b.length ≤ ([0, 0] : List ℤ).length) ∧
    drainTransport recordingAnalyzer [[1], [2, 3], [4]] [0, 0] { fftDataFifo := [] } =
      some (([[1], [2, 3], [4]] : List (List ℤ)).foldl shiftAppend [0, 0],
        (windowsAfter [0, 0] [[1], [2, 3], [4]]).foldl
          (fun g window =>
            g.produceFFTDataForRendering recordingAnalyzer window (-((48 : ℕ) : ℤ)))
          { fftDataFifo := [] }) ∧
    (windowsAfter ([0, 0] : List ℤ) [[1], [2, 3], [4]]).length =
      ([[1], [2, 3], [4]] : List (List ℤ)).length ∧
    (([[1], [2, 3], [4]] : List (List ℤ)) ≠ [] →
      (windowsAfter ([0, 0] : List ℤ) [[1], [2, 3], [4]]).getLast? =
        some (([[1], [2, 3], [4]] : List (List ℤ)).foldl shiftAppend [0, 0])) ∧
    ([[1], [2, 3], [4]] : List (List ℤ)).foldl shiftAppend [0, 0] =
      newest ([0, 0] : List ℤ).length ([0, 0] ++ ([[1], [2, 3], [4]] : List (List ℤ)).flatten) :=
  ⟨by decide,
    process_produces_one_frame_per_block recordingAnalyzer [[1], [2, 3], [4]] [0, 0]
      { fftDataFifo := [] } (by decide)⟩

/-- C7: for every PathProducer state in which the transport has no complete block and no
transform frame or path is pending, process completes and leaves the state unchanged, in
particular the rolling window and the stored spectrum path, for every bounds and sample
rate. -/
theorem process_without_new_data_reuses_path {D S : Type} [Neg D] [Div D] [NatCast D]
    (a : AnalyzerHelpers D S) (fftBounds : Rectangle D) (sampleRate : D)
    (pp : PathProducer D S) (hFifo : pp.leftChannelFifo = [])
    (hFrames : pp.leftChannelFFTDataGenerator.fftDataFifo = [])
    (hPaths : pp.pathProducer.pathFifo = []) :
    ∃ after : PathProducer D S, pp.process a fftBounds sampleRate = some after ∧
      after.monoBuffer = pp.monoBuffer ∧ after.leftChannelFFTPath = pp.leftChannelFFTPath ∧
      after = pp :=
  ⟨pp, process_idle a fftBounds sampleRate pp hFifo hFrames hPaths, rfl, rfl, rfl⟩

/-- Witness for C7: the demo producer with no block waiting. -/
theorem process_without_new_data_reuses_path_witness :
    ((demoProducer []).leftChannelFifo = [] ∧
      (demoProducer []).leftChannelFFTDataGenerator.fftDataFifo = [] ∧
      (demoProducer []).pathProducer.pathFifo = []) ∧
    ∃ after : PathProducer ℤ (List (List ℤ)),
      (demoProducer []).process recordingAnalyzer ⟨3, 4, 5, 6⟩ 48000 = some after ∧
      after.monoBuffer = (demoProducer []).monoBuffer ∧
      after.leftChannelFFTPath = (demoProducer []).leftChannelFFTPath ∧
      after = demoProducer [] :=
  ⟨⟨rfl, rfl, rfl⟩,
    process_without_new_data_reuses_path recordingAnalyzer ⟨3, 4, 5, 6⟩ 48000 (demoProducer [])
      rfl rfl rfl⟩

/-! ## The refresh cycle -/

/-- Whatever process returns has its three queues empty. -/
theorem process_some_idle {D S : Type} [Neg D] [Div D] [NatCast D] (a : AnalyzerHelpers D S)
    (fftBounds : Rectangle D) (sampleRate : D) (pp after : PathProducer D S)
    (h : pp.process a fftBounds sampleRate = some after) :
    after.leftChannelFifo = [] ∧ after.leftChannelFFTDataGenerator.fftDataFifo = [] ∧
      after.pathProducer.pathFifo = [] := by
  unfold PathProducer.process at h
  cases hd : drainTransport a pp.leftChannelFifo pp.monoBuffer pp.leftChannelFFTDataGenerator with
  | none => rw [hd] at h; cases h
  | some drained =>
    rw [hd] at h
    simp only [Option.some_bind, Option.some.injEq] at h
    subst h
    exact ⟨rfl, rfl, rfl⟩

/-- What a completed timer tick does to the dirty flag and to the chain. -/
theorem timerCallback_some {D C S : Type} [Neg D] [Div D] [NatCast D] [IntCast D]
    (c : ChainHelpers D C) (a : AnalyzerHelpers D S) (host : Host D)
    (s after : ResponseCurveComponent D C S) (h : timerCallback c a host s = some after) :
    after.parametersChanged = false ∧
    after.monoChain = (if s.parametersChanged then
      updateChain c host.chainSettings host.sampleRate s.monoChain else s.monoChain) ∧
    s.leftPathProducer.process a (getAnalysisArea host.width host.height).toFloat
      host.sampleRate = some after.leftPathProducer ∧
    s.rightPathProducer.process a (getAnalysisArea host.width host.height).toFloat
      host.sampleRate = some after.rightPathProducer := by
  unfold timerCallback at h
  simp only at h
  cases hl : s.leftPathProducer.process a (getAnalysisArea host.width host.height).toFloat
      host.sampleRate with
  | none => rw [hl] at h; cases h
  | some left =>
    cases hr : s.rightPathProducer.process a (getAnalysisArea host.width host.height).toFloat
        host.sampleRate with
    | none => rw [hl, hr] at h; cases h
    | some right =>
      rw [hl, hr] at h
      simp only [Option.some_bind, compareAndSetBool] at h
      cases hflag : s.parametersChanged
      · rw [hflag] at h
        simp only [Bool.false_eq_true, if_false, Option.some.injEq] at h
        subst h
        exact ⟨rfl, by simp [hflag], rfl, rfl⟩
      · rw [hflag] at h
        simp only [if_true, Option.some.injEq] at h
        subst h
        exact ⟨rfl, by simp [hflag], rfl, rfl⟩

/-- A timer tick completes when the blocks waiting on both transports fit the windows. -/
theorem timerCallback_completes {D C S : Type} [Neg D] [Div D] [NatCast D] [IntCast D]
    (c : ChainHelpers D C) (a : AnalyzerHelpers D S) (host : Host D)
    (s : ResponseCurveComponent D C S)
    (hl : ∀ b ∈ s.leftPathProducer.leftChannelFifo,
      b.length ≤ s.leftPathProducer.monoBuffer.length)
    (hr : ∀ b ∈ s.rightPathProducer.leftChannelFifo,
      b.length ≤ s.rightPathProducer.monoBuffer.length) :
    ∃ after, timerCallback c a host s = some after := by
  obtain ⟨left, hleft, -⟩ := process_eq a (getAnalysisArea host.width host.height).toFloat
    host.sampleRate s.leftPathProducer hl
  obtain ⟨right, hright, -⟩ := process_eq a (getAnalysisArea host.width host.height).toFloat
    host.sampleRate s.rightPathProducer hr
  unfold timerCallback
  simp only [hleft, hright, Option.some_bind]
  split <;> exact ⟨_, rfl⟩

theorem run_concat {D C S : Type} [Neg D] [Div D] [NatCast D] [IntCast D]
    (c : ChainHelpers D C) (a : AnalyzerHelpers D S) (s : ResponseCurveComponent D C S)
    (events : List (Event D)) (e : Event D) :
    run c a s (events ++ [e]) = (run c a s events).bind (fun mid => step c a mid e) := by
  unfold run
  rw [List.foldlM_append]
  cases List.foldlM (step c a) s events <;> simp

theorem notifiedSinceLastTick_concat {D : Type} (history : List (Event D)) (e : Event D) :
    notifiedSinceLastTick (history ++ [e]) =
      (!e.isTick && (e.isNotification || notifiedSinceLastTick history)) := by
  unfold notifiedSinceLastTick
  rw [List.reverse_append, List.reverse_singleton, List.singleton_append, List.takeWhile_cons]
  cases e <;> simp [Event.isTick, Event.isNotification]

/-- From a state with the flag clear, after any history that ran to completion the flag is
set exactly when a notification arrived since the last tick. -/
theorem flag_after_history {D C S : Type} [Neg D] [Div D] [NatCast D] [IntCast D]
    (c : ChainHelpers D C) (a : AnalyzerHelpers D S) (s : ResponseCurveComponent D C S)
    (hclear : s.parametersChanged = false) (history : List (Event D)) :
    ∀ now, run c a s history = some now →
      now.parametersChanged = notifiedSinceLastTick history := by
  induction history using List.reverseRecOn with
  | nil =>
    intro now h
    simp only [run, List.foldlM_nil, Option.pure_def, Option.some.injEq] at h
    subst h
    simpa [notifiedSinceLastTick] using hclear
  | append_singleton history e ih =>
    intro now h
    rw [run_concat] at h
    cases hmid : run c a s history with
    | none => rw [hmid] at h; cases h
    | some mid =>
      rw [hmid, Option.some_bind] at h
      have hflag := ih mid hmid
      rw [notifiedSinceLastTick_concat]
      cases e with
      | parameterValueChanged i v =>
        simp only [step, parameterValueChanged, Option.some.injEq] at h
        subst h
        simp [Event.isTick, Event.isNotification]
      | timerCallback host =>
        simp only [step] at h
        simp [Event.isTick, (timerCallback_some c a host mid now h).1]
      | audioThread left right =>
        simp only [step, Option.some.injEq] at h
        subst h
        simpa [Event.isTick, Event.isNotification] using hflag

/-! ## Claims on the refresh cycle -/

/-- C6: from a component whose dirty flag is clear, after any history of notifications,
ticks and audio-thread activity that ran to completion: a notification only sets the dirty
flag (chain and producers are untouched); a tick, which completes when the waiting blocks
fit the windows, recomputes the chain with `updateChain` if and only if a notification
arrived since the previous tick, and ends with the dirty flag clear. -/
theorem dirty_flag_protocol {D C S : Type} [Neg D] [Div D] [NatCast D] [IntCast D]
    (c : ChainHelpers D C) (a : AnalyzerHelpers D S) (s now : ResponseCurveComponent D C S)
    (history : List (Event D)) (hclear : s.parametersChanged = false)
    (hrun : run c a s history = some now) :
    (∀ (parameterIndex : ℤ) (newValue : D),
      step c a now (Event.parameterValueChanged parameterIndex newValue) =
        some { now with parametersChanged := true }) ∧
    (∀ host : Host D,
      (∀ b ∈ now.leftPathProducer.leftChannelFifo,
        b.length ≤ now.leftPathProducer.monoBuffer.length) →
      (∀ b ∈ now.rightPathProducer.leftChannelFifo,
        b.length ≤ now.rightPathProducer.monoBuffer.length) →
      ∃ after, step c a now (Event.timerCallback host) = some after ∧
        after.parametersChanged = false ∧
        after.monoChain = (if notifiedSinceLastTick history then
          updateChain c host.chainSettings host.sampleRate now.monoChain
        else now.monoChain)) := by
  refine ⟨fun _ _ => rfl, ?_⟩
  intro host hl hr
  obtain ⟨after, hafter⟩ := timerCallback_completes c a host now hl hr
  obtain ⟨hflag, hchain, -⟩ := timerCallback_some c a host now after hafter
  refine ⟨after, hafter, hflag, ?_⟩
  rw [hchain, flag_after_history c a s hclear history now hrun]

/-- Witness for C6: the demo component after a tick, a notification and a delivery of
audio. -/
theorem dirty_flag_protocol_witness :
    ((demoComponent [[1], [2]] []).parametersChanged = false ∧
      run demoHelpers recordingAnalyzer (demoComponent [[1], [2]] []) demoHistory =
        some demoNow) ∧
    ((∀ (parameterIndex : ℤ) (newValue : ℤ),
      step demoHelpers recordingAnalyzer demoNow
          (Event.parameterValueChanged parameterIndex newValue) =
        some { demoNow with parametersChanged := true }) ∧
    (∀ host : Host ℤ,
      (∀ b ∈ demoNow.leftPathProducer.leftChannelFifo,
        b.length ≤ demoNow.leftPathProducer.monoBuffer.length) →
      (∀ b ∈ demoNow.rightPathProducer.leftChannelFifo,
        b.length ≤ demoNow.rightPathProducer.monoBuffer.length) →
      ∃ after, step demoHelpers recordingAnalyzer demoNow (Event.timerCallback host) =
          some after ∧
        after.parametersChanged = false ∧
        after.monoChain = (if notifiedSinceLastTick demoHistory then
          updateChain demoHelpers host.chainSettings host.sampleRate demoNow.monoChain
        else demoNow.monoChain))) :=
  ⟨⟨rfl, by decide⟩,
    dirty_flag_protocol demoHelpers recordingAnalyzer (demoComponent [[1], [2]] []) demoNow
      demoHistory rfl (by decide)⟩

/-- C8: if a timer tick has completed and a second tick follows with no sample block pushed
and no notification in between, with the same component size and sample rate (the settings
in the parameter store may differ), then the second tick completes and leaves the state as
it was, and paint presents the same filter-response curve and the same two spectrum paths
after the second tick as after the first. -/
theorem consecutive_idle_ticks_present_same_curves {D C S : Type} [Zero D] [One D] [Add D]
    [Sub D] [Mul D] [Div D] [Neg D] [NatCast D] [IntCast D] (c : ChainHelpers D C)
    (a : AnalyzerHelpers D S) (m : PaintMath D C) (host : Host D)
    (laterSettings : ChainSettings D) (s first : ResponseCurveComponent D C S)
    (hfirst : timerCallback c a host s = some first) :
    ∃ second, timerCallback c a { host with chainSettings := laterSettings } first =
        some second ∧
      paint m { host with chainSettings := laterSettings } second = paint m host first ∧
      second = first := by
  obtain ⟨hflag, -, hl, hr⟩ := timerCallback_some c a host s first hfirst
  obtain ⟨l1, l2, l3⟩ := process_some_idle a _ _ _ _ hl
  obtain ⟨r1, r2, r3⟩ := process_some_idle a _ _ _ _ hr
  have hleft := process_idle a (getAnalysisArea host.width host.height).toFloat host.sampleRate
    first.leftPathProducer l1 l2 l3
  have hright := process_idle a (getAnalysisArea host.width host.height).toFloat
    host.sampleRate first.rightPathProducer r1 r2 r3
  refine ⟨first, ?_, rfl, rfl⟩
  unfold timerCallback
  simp only [hleft, hright, Option.some_bind, compareAndSetBool, hflag]
  obtain ⟨flag, chain, left, right⟩ := first
  simp only at hflag
  subst hflag
  simp

/-- Witness for C8: the demo component with two blocks waiting on the left transport. -/
theorem consecutive_idle_ticks_present_same_curves_witness :
    timerCallback demoHelpers recordingAnalyzer demoHost (demoComponent [[1], [2]] []) =
      some demoAfterTick ∧
    ∃ second, timerCallback demoHelpers recordingAnalyzer
        { demoHost with chainSettings := demoBypassedSettings } demoAfterTick = some second ∧
      paint demoMath { demoHost with chainSettings := demoBypassedSettings } second =
        paint demoMath demoHost demoAfterTick ∧
      second = demoAfterTick :=
  ⟨by decide,
    consecutive_idle_ticks_present_same_curves demoHelpers recordingAnalyzer demoMath demoHost
      demoBypassedSettings (demoComponent [[1], [2]] []) demoAfterTick (by decide)⟩

/-! ## The magnitude array -/

theorem cutSectionsMagnitude_eq_foldl {D C : Type} [Mul D] (g : C → D → D → D)
    (cut : CutFilter C) (freq sampleRate mag : D) :
    cutSectionsMagnitude g cut freq sampleRate mag =
      (cut.activeSections.map (fun f => g f.coefficients freq sampleRate)).foldl (· * ·) mag := by
  unfold cutSectionsMagnitude CutFilter.activeSections
  cases cut.bypassed0 <;> cases cut.bypassed1 <;> cases cut.bypassed2 <;>
    cases cut.bypassed3 <;> simp

theorem columnMagnitude_eq_orderedProduct {D C : Type} [Mul D] [One D] (g : C → D → D → D)
    (chain : MonoChain C) (freq sampleRate : D) :
    columnMagnitude g chain freq sampleRate =
      orderedProduct (chain.activeSections.map (fun f => g f.coefficients freq sampleRate)) := by
  unfold columnMagnitude MonoChain.activeSections orderedProduct
  cases chain.peakBypassed <;> cases chain.lowCutBypassed <;> cases chain.highCutBypassed <;>
    simp [cutSectionsMagnitude_eq_foldl, List.foldl_append]

theorem orderedProduct_eq_prod {D : Type} [Monoid D] (factors : List D) :
    orderedProduct factors = factors.prod := by
  unfold orderedProduct
  rw [List.prod_eq_foldl]

/-- The magnitude loop of paint always completes, and yields the decibel value of each
column in column order. -/
theorem paintMags_eq_map {D C : Type} [Zero D] [One D] [Add D] [Sub D] [Mul D] [Div D]
    [NatCast D] (m : PaintMath D C) (monoChain : MonoChain C) (sampleRate : D) (w : ℕ) :
    paintMags m monoChain sampleRate w =
      some ((List.range w).map (fun i => m.gainToDecibels
        (columnMagnitude m.getMagnitudeForFrequency monoChain
          (columnFrequency m.log10 m.pow i w) sampleRate))) := by
  unfold paintMags
  have h := foldlM_writeAt_range (fun i => m.gainToDecibels
        (columnMagnitude m.getMagnitudeForFrequency monoChain
          (columnFrequency m.log10 m.pow i w) sampleRate)) (List.replicate w (0 : D)) w
        (by simp)
  simpa using h

/-! ## The response curve -/

/-- A loop that reads `mags[i]` for each index of a list of valid indices and appends one
path element per index completes, with one element appended per index in order. -/
theorem foldlM_append_elements {D : Type} (mags : List D) (g : ℕ → D)
    (f : ℕ → D → PathElement D) (indices : List ℕ) (init : Path D)
    (hvalid : ∀ i ∈ indices, mags[i]? = some (g i)) :
    indices.foldlM
      (fun (curve : Path D) (i : ℕ) =>
        (readAt mags (i : ℤ)).bind fun mag => some (curve ++ [f i mag])) init =
      some (init ++ indices.map (fun i => f i (g i))) := by
  induction indices generalizing init with
  | nil => simp
  | cons i rest ih =>
    rw [List.foldlM_cons, readAt_natCast, hvalid i (List.mem_cons_self _ _)]
    simp only [Option.some_bind, Option.bind_eq_bind]
    rw [ih _ (fun j hj => hvalid j (List.mem_cons_of_mem _ hj))]
    simp

/-- The curve built from a magnitude array of `n + 1` elements: it completes and has one
element per array element, the first starting the sub-path. -/
theorem buildResponseCurve_succ {D : Type} [Add D] [Sub D] [Mul D] [Div D] [Neg D]
    [NatCast D] [IntCast D] (responseArea : Rectangle ℤ) (g : ℕ → D) (n : ℕ) :
    buildResponseCurve responseArea ((List.range (n + 1)).map g) =
      some (PathElement.startNewSubPath ((responseArea.x : ℤ) : D)
          (paintMap responseArea (g 0)) ::
        (List.range' 1 n).map (fun (i : ℕ) =>
          PathElement.lineTo ((((responseArea.x + (i : ℤ)) % 2 ^ 64 : ℤ)) : D)
            (paintMap responseArea (g i)))) := by
  unfold buildResponseCurve
  have hhead : ((List.range (n + 1)).map g).head? = some (g 0) := by
    rw [List.range_succ_eq_map]
    simp
  rw [hhead, Option.some_bind]
  have hlen : ((List.range (n + 1)).map g).length - 1 = n := by simp
  rw [hlen]
  have h := foldlM_append_elements ((List.range (n + 1)).map g) g
    (fun (i : ℕ) (mag : D) =>
      PathElement.lineTo ((((responseArea.x + (i : ℤ)) % 2 ^ 64 : ℤ)) : D)
        (paintMap responseArea mag)) (List.range' 1 n)
    [PathElement.startNewSubPath ((responseArea.x : ℤ) : D) (paintMap responseArea (g 0))]
    (by
      intro i hi
      rw [List.mem_range'_1] at hi
      have hi2 : i < n + 1 := by omega
      simp [hi2])
  simpa using h

/-- For an analysis area of width `n + 1` whose columns have `size_t` coordinates, the
response curve paint builds has `n + 1` vertices, the one of column `i` at
`x = responseArea.getX() + i` and at the `y` mapped from the decibel magnitude of
column `i`, and no read leaves the magnitude array. -/
theorem paintResponseCurve_positive_width {D C : Type} [Zero D] [One D] [Add D] [Sub D]
    [Mul D] [Div D] [Neg D] [NatCast D] [IntCast D] (m : PaintMath D C)
    (monoChain : MonoChain C) (sampleRate : D) (responseArea : Rectangle ℤ) (n : ℕ)
    (hw : responseArea.w = ((n + 1 : ℕ) : ℤ)) (hx : 0 ≤ responseArea.x)
    (hmax : responseArea.x + ((n + 1 : ℕ) : ℤ) ≤ 2 ^ 64) :
    ∃ curve : Path D, paintResponseCurve m monoChain sampleRate responseArea = some curve ∧
      curve.length = n + 1 ∧
      ∀ i, i < n + 1 → (curve[i]?).map PathElement.vertex =
        some ((((responseArea.x + (i : ℤ) : ℤ)) : D),
          paintMap responseArea (m.gainToDecibels
            (columnMagnitude m.getMagnitudeForFrequency monoChain
              (columnFrequency m.log10 m.pow i (n + 1)) sampleRate))) := by
  unfold paintResponseCurve
  have hn : responseArea.w.toNat = n + 1 := by rw [hw]; exact Int.toNat_ofNat _
  rw [hn, paintMags_eq_map, Option.some_bind, buildResponseCurve_succ]
  refine ⟨_, rfl, by simp, ?_⟩
  intro i hi
  cases i with
  | zero => simp [PathElement.vertex]
  | succ j =>
    have hj : j < n := by omega
    have hmod : (responseArea.x + ((j + 1 : ℕ) : ℤ)) % 2 ^ 64 =
        responseArea.x + ((j + 1 : ℕ) : ℤ) := by
      apply Int.emod_eq_of_lt <;> push_cast at hmax ⊢ <;> omega
    have hidx : (List.range' 1 n)[j]? = some (j + 1) := by
      rw [List.getElem?_range' _ _ hj]
      simp [Nat.add_comm]
    simp only [List.getElem?_cons_succ, List.getElem?_map, hidx, Option.map_some',
      PathElement.vertex, hmod]

/-- For an analysis area of width 0 the curve has no defined result: the magnitude array is
empty and its first element is read. -/
theorem paintResponseCurve_width_zero {D C : Type} [Zero D] [One D] [Add D] [Sub D]
    [Mul D] [Div D] [Neg D] [NatCast D] [IntCast D] (m : PaintMath D C)
    (monoChain : MonoChain C) (sampleRate : D) (responseArea : Rectangle ℤ)
    (hw : responseArea.w = 0) :
    paintResponseCurve m monoChain sampleRate responseArea = none := by
  unfold paintResponseCurve
  rw [hw]
  rfl

/-! ## The numeric library in exact arithmetic

The lemmas of this section instantiate the numeric type with the real numbers and the
library functions with the exact `log10` and `pow`; they say nothing on rounding. -/

/-- In an ordered field whose `log10` maps 1 to 0, a gain of 1 is 0 dB. -/
theorem gainToDecibels_one {D : Type} [LinearOrderedField D] (log10 : D → D)
    (hlog : log10 1 = 0) : gainToDecibels log10 (1 : D) = 0 := by
  unfold gainToDecibels
  simp [hlog]

theorem logb_audio_range : Real.logb 10 20000 - Real.logb 10 20 = 3 := by
  rw [← Real.logb_div (by norm_num) (by norm_num)]
  have h : (20000 : ℝ) / 20 = 10 ^ (3 : ℝ) := by norm_num
  rw [h, Real.logb_rpow (by norm_num) (by norm_num)]

/-- In exact real arithmetic the frequency of column `i` of `w` is `20 * 1000 ^ (i / w)`. -/
theorem columnFrequency_exact (i w : ℕ) :
    columnFrequency (Real.logb 10) (fun a b : ℝ => a ^ b) i w =
      20 * (1000 : ℝ) ^ ((i : ℝ) / (w : ℝ)) := by
  unfold columnFrequency mapToLog10
  simp only [Nat.cast_ofNat]
  rw [logb_audio_range, Real.rpow_add (by norm_num),
    Real.rpow_logb (by norm_num) (by norm_num) (by norm_num)]
  have h : (1000 : ℝ) = 10 ^ (3 : ℝ) := by norm_num
  rw [h, ← Real.rpow_mul (by norm_num)]
  ring_nf

/-- In exact real arithmetic: column 0 is sampled at 20 Hz, `log10` of the sampled
frequency is affine in `i / w`, the sampled frequency increases strictly with the column,
and it lies between 20 Hz and 20 kHz. -/
theorem columnFrequency_exact_log_spaced (i w : ℕ) (hi : i < w) :
    columnFrequency (Real.logb 10) (fun a b : ℝ => a ^ b) 0 w = 20 ∧
    Real.logb 10 (columnFrequency (Real.logb 10) (fun a b : ℝ => a ^ b) i w) =
      Real.logb 10 20 + 3 * ((i : ℝ) / (w : ℝ)) ∧
    (∀ j, i < j → columnFrequency (Real.logb 10) (fun a b : ℝ => a ^ b) i w <
      columnFrequency (Real.logb 10) (fun a b : ℝ => a ^ b) j w) ∧
    20 ≤ columnFrequency (Real.logb 10) (fun a b : ℝ => a ^ b) i w ∧
    columnFrequency (Real.logb 10) (fun a b : ℝ => a ^ b) i w < 20000 := by
  have hw : (0 : ℝ) < (w : ℝ) := by
    have hpos : 0 < w := by omega
    exact_mod_cast hpos
  have hfrac : (i : ℝ) / (w : ℝ) < 1 := by
    rw [div_lt_one hw]
    exact_mod_cast hi
  have hfrac0 : 0 ≤ (i : ℝ) / (w : ℝ) := by positivity
  refine ⟨?_, ?_, ?_, ?_, ?_⟩
  · rw [columnFrequency_exact]
    simp
  · rw [columnFrequency_exact, Real.logb_mul (by norm_num) (by positivity),
      Real.logb_rpow_eq_mul_logb_of_pos (by norm_num)]
    have h3 : Real.logb 10 1000 = 3 := by
      have h : (1000 : ℝ) = 10 ^ (3 : ℝ) := by norm_num
      rw [h, Real.logb_rpow (by norm_num) (by norm_num)]
    rw [h3]
    ring
  · intro j hj
    rw [columnFrequency_exact, columnFrequency_exact]
    have hlt : (i : ℝ) / (w : ℝ) < (j : ℝ) / (w : ℝ) := by
      apply div_lt_div_of_pos_right _ hw
      exact_mod_cast hj
    have hpow := Real.rpow_lt_rpow_of_exponent_lt (x := 1000) (by norm_num) hlt
    linarith
  · rw [columnFrequency_exact]
    have hone := Real.one_le_rpow (x := 1000) (by norm_num) hfrac0
    linarith
  · rw [columnFrequency_exact]
    have hpow := Real.rpow_lt_rpow_of_exponent_lt (x := 1000) (by norm_num) hfrac
    rw [Real.rpow_one] at hpow
    linarith

/-! ## Claims on the magnitude of a column -/

/-- C1: for every frequency, sample rate and bypass configuration, the linear magnitude that
paint computes for a column is the product (taken in source order, starting from 1) of the
responses of exactly the sections that are not bypassed inside stages that are not bypassed;
the empty product is 1; the magnitude loop stores, for each of the `w` columns, that
product converted by `gainToDecibels`; and in any monoid the left-to-right product is the
product of the list. -/
theorem paint_magnitude_is_product_of_active_sections {D C : Type} [Zero D] [One D] [Add D]
    [Sub D] [Mul D] [Div D] [NatCast D] (m : PaintMath D C) (monoChain : MonoChain C)
    (sampleRate : D) (w : ℕ) :
    (∀ freq : D, columnMagnitude m.getMagnitudeForFrequency monoChain freq sampleRate =
        orderedProduct (monoChain.activeSections.map
          (fun f => m.getMagnitudeForFrequency f.coefficients freq sampleRate))) ∧
    orderedProduct ([] : List D) = 1 ∧
    (∃ mags, paintMags m monoChain sampleRate w = some mags ∧ mags.length = w ∧
      ∀ i, i < w → mags[i]? = some (m.gainToDecibels (orderedProduct
        (monoChain.activeSections.map (fun f => m.getMagnitudeForFrequency f.coefficients
          (columnFrequency m.log10 m.pow i w) sampleRate))))) ∧
    ∀ (M : Type) [Monoid M] (factors : List M), orderedProduct factors = factors.prod := by
  refine ⟨fun freq => columnMagnitude_eq_orderedProduct _ _ _ _, rfl,
    ⟨_, paintMags_eq_map _ _ _ _, by simp, ?_⟩, fun M _ factors => orderedProduct_eq_prod factors⟩
  intro i hi
  simp [hi, columnMagnitude_eq_orderedProduct]

/-- C2: when the settings snapshot has low-cut, peak and high-cut all bypassed, then after
`updateChain` the magnitude paint computes is 1 at every frequency, whatever the helper
functions put into the sections and whatever the sample rates; every one of the `w` columns
stores `gainToDecibels 1` (which is 0 dB for the JUCE conversion, `gainToDecibels_one`). -/
theorem fully_bypassed_chain_paints_unit_magnitude {D C : Type} [Zero D] [One D] [Add D]
    [Sub D] [Mul D] [Div D] [NatCast D] (h : ChainHelpers D C) (m : PaintMath D C)
    (chainSettings : ChainSettings D) (updateRate paintRate : D) (monoChain : MonoChain C)
    (w : ℕ) (hLow : chainSettings.lowCutBypassed = true)
    (hPeak : chainSettings.peakBypassed = true)
    (hHigh : chainSettings.highCutBypassed = true) :
    (∀ freq : D, columnMagnitude m.getMagnitudeForFrequency
        (updateChain h chainSettings updateRate monoChain) freq paintRate = 1) ∧
    paintMags m (updateChain h chainSettings updateRate monoChain) paintRate w =
      some (List.replicate w (m.gainToDecibels 1)) := by
  have key : ∀ freq : D, columnMagnitude m.getMagnitudeForFrequency
      (updateChain h chainSettings updateRate monoChain) freq paintRate = 1 := by
    intro freq
    simp [columnMagnitude, updateChain, hLow, hPeak, hHigh]
  refine ⟨key, ?_⟩
  rw [paintMags_eq_map]
  simp only [key]
  congr 1
  apply List.ext_getElem <;> simp

/-- Witness for C2: the demo chain updated with the fully bypassed demo settings. -/
theorem fully_bypassed_chain_paints_unit_magnitude_witness :
    (demoBypassedSettings.lowCutBypassed = true ∧ demoBypassedSettings.peakBypassed = true ∧
      demoBypassedSettings.highCutBypassed = true) ∧
    (∀ freq : ℤ, columnMagnitude demoMath.getMagnitudeForFrequency
        (updateChain demoHelpers demoBypassedSettings 44100 demoChain) freq 48000 = 1) ∧
    paintMags demoMath (updateChain demoHelpers demoBypassedSettings 44100 demoChain) 48000 3 =
      some (List.replicate 3 (demoMath.gainToDecibels 1)) :=
  ⟨⟨rfl, rfl, rfl⟩,
    fully_bypassed_chain_paints_unit_magnitude demoHelpers demoMath demoBypassedSettings
      44100 48000 demoChain 3 rfl rfl rfl⟩

/-! ## Claim on the response curve -/

/-- C9 at the failing input: for an analysis area of width 0 the magnitude array is empty
and `mags.front()` reads an element that does not exist, so building the curve has no
defined result (the claim asks for a curve with no vertex and no such read), whatever the
chain, the sample rate and the position and height of the area; a component 40 pixels wide
has such an analysis area, and paint has no defined result for it. -/
theorem paintResponseCurve_zero_width {D C S : Type} [Zero D] [One D] [Add D] [Sub D]
    [Mul D] [Div D] [Neg D] [NatCast D] [IntCast D] (m : PaintMath D C)
    (monoChain : MonoChain C) (sampleRate : D) (x y h : ℤ) :
    paintMags m monoChain sampleRate (0 : ℤ).toNat = some [] ∧
    buildResponseCurve (D := D) { x := x, y := y, w := 0, h := h } [] = none ∧
    paintResponseCurve m monoChain sampleRate { x := x, y := y, w := 0, h := h } = none ∧
    ∀ (height : ℕ) (chainSettings : ChainSettings D) (s : ResponseCurveComponent D C S),
      (getAnalysisArea 40 height).w = 0 ∧
      paint m { width := 40, height := height, sampleRate := sampleRate,
                chainSettings := chainSettings } s = none := by
  refine ⟨rfl, rfl, paintResponseCurve_width_zero m monoChain sampleRate _ rfl, ?_⟩
  intro height chainSettings s
  have hw : (getAnalysisArea ((40 : ℕ) : ℤ) (height : ℤ)).w = 0 := by
    simp [getAnalysisArea, getRenderArea, getLocalBounds, Rectangle.removeFromTop,
      Rectangle.removeFromBottom, Rectangle.removeFromLeft, Rectangle.removeFromRight]
  refine ⟨hw, ?_⟩
  unfold paint
  simp only [paintResponseCurve_width_zero m s.monoChain sampleRate _ hw, Option.none_bind]

/-! ## The vertical map and the grid lines

The statements of this section are in exact arithmetic: the numeric type is a field of
characteristic 0.  The bounds are integers and the grid gains multiples of 12, so the
values concerned are multiples of a quarter. -/

/-- In a field the vertical map of paint is the affine interpolation that takes the range
-24 .. 24 onto bottom .. top. -/
theorem paintMap_eq_affine {D : Type} [Field D] [CharZero D] (responseArea : Rectangle ℤ)
    (input : D) :
    paintMap responseArea input =
      (responseArea.getBottom : D) +
        ((responseArea.y : D) - (responseArea.getBottom : D)) * ((input + 24) / 48) := by
  unfold paintMap jmap
  simp only [Nat.cast_ofNat]
  have h48 : (24 : D) - -24 = 48 := by norm_num
  rw [h48, sub_neg_eq_add]
  ring

/-- A curve value equal to one of the five grid gains is mapped to a multiple of a quarter
pixel: with integer bounds no rounding enters these values. -/
theorem paintMap_gain_quarter {D : Type} [Field D] [CharZero D] (responseArea : Rectangle ℤ)
    (g : D) (hg : g ∈ (gains : List D)) :
    ∃ k : ℤ, paintMap responseArea g = (k : D) / 4 := by
  simp only [gains, List.mem_cons, List.mem_singleton, Int.cast_neg, Int.cast_ofNat,
    Int.cast_zero, List.not_mem_nil, or_false] at hg
  rcases hg with h | h | h | h | h
  · refine ⟨4 * responseArea.getBottom, ?_⟩
    rw [paintMap_eq_affine, h]
    push_cast
    ring
  · refine ⟨3 * responseArea.getBottom + responseArea.y, ?_⟩
    rw [paintMap_eq_affine, h]
    push_cast
    ring
  · refine ⟨2 * responseArea.getBottom + 2 * responseArea.y, ?_⟩
    rw [paintMap_eq_affine, h]
    push_cast
    ring
  · refine ⟨responseArea.getBottom + 3 * responseArea.y, ?_⟩
    rw [paintMap_eq_affine, h]
    push_cast
    ring
  · refine ⟨4 * responseArea.y, ?_⟩
    rw [paintMap_eq_affine, h]
    push_cast
    ring

/-- C11: for every analysis area, in exact arithmetic (a field of characteristic 0) the
vertical map paint uses for the filter-response curve is the affine map of -24 .. 24 dB onto
the vertical bounds: -24 dB goes to the bottom edge, +24 dB to the top edge and 0 dB to the
vertical midpoint; each horizontal grid line of resized, for the gains -24, -12, 0, 12, 24,
is placed (before the conversion to a pixel row) by the same map over the same analysis
area, so a curve value of g dB lies on the g dB line; and these positions are multiples of
a quarter pixel. -/
theorem grid_lines_match_response_map {D : Type} [Field D] [CharZero D]
    (responseArea : Rectangle ℤ) :
    paintMap responseArea (-24 : D) = (responseArea.getBottom : D) ∧
    paintMap responseArea (24 : D) = (responseArea.y : D) ∧
    paintMap responseArea (0 : D) =
      ((responseArea.y : D) + (responseArea.getBottom : D)) / 2 ∧
    (∀ input : D, paintMap responseArea input =
      (responseArea.getBottom : D) +
        ((responseArea.y : D) - (responseArea.getBottom : D)) * ((input + 24) / 48)) ∧
    (gains : List D) = [-24, -12, 0, 12, 24] ∧
    (∀ g ∈ (gains : List D), gridLineY responseArea g = paintMap responseArea g) ∧
    (∀ (toInt : D → ℤ) (width height : ℕ),
      resizedHorizontalLines toInt width height =
        (gains : List D).map (fun g =>
          (toInt (paintMap (getAnalysisArea width height) g),
            ((getAnalysisArea width height).x : D),
            ((getAnalysisArea width height).getRight : D)))) ∧
    (∀ g ∈ (gains : List D), ∃ k : ℤ, paintMap responseArea g = (k : D) / 4) := by
  refine ⟨?_, ?_, ?_, paintMap_eq_affine responseArea, ?_, fun g _ => rfl,
    fun _ _ _ => rfl, paintMap_gain_quarter responseArea⟩
  · rw [paintMap_eq_affine]
    ring
  · rw [paintMap_eq_affine]
    ring
  · rw [paintMap_eq_affine]
    ring
  · simp [gains]

/-- Witness for C11: the analysis area of a 600 by 120 component over the rationals; its
bottom edge is row 114 and its top edge row 16. -/
theorem grid_lines_match_response_map_witness :
    (Rectangle.getBottom { x := 20, y := 16, w := 560, h := 98 } = 114) ∧
    paintMap (D := ℚ) { x := 20, y := 16, w := 560, h := 98 } (-24) =
      ((Rectangle.getBottom { x := 20, y := 16, w := 560, h := 98 } : ℤ) : ℚ) ∧
    paintMap (D := ℚ) { x := 20, y := 16, w := 560, h := 98 } 24 = (((16 : ℤ)) : ℚ) ∧
    (∀ g ∈ (gains : List ℚ),
      gridLineY { x := 20, y := 16, w := 560, h := 98 } g =
        paintMap { x := 20, y := 16, w := 560, h := 98 } g) :=
  ⟨by decide,
    (grid_lines_match_response_map (D := ℚ) { x := 20, y := 16, w := 560, h := 98 }).1,
    (grid_lines_match_response_map (D := ℚ) { x := 20, y := 16, w := 560, h := 98 }).2.1,
    (grid_lines_match_response_map (D := ℚ)
      { x := 20, y := 16, w := 560, h := 98 }).2.2.2.2.2.1⟩

/-- A concrete check of the vertical map: for a 600 by 120 component the analysis area has
top 16 and bottom 114, and -24, 0 and +24 dB are mapped to the rows 114, 65 and 16. -/
theorem paintMap_demo :
    getAnalysisArea 600 120 = { x := 20, y := 16, w := 560, h := 98 } ∧
    paintMap (D := ℚ) (getAnalysisArea 600 120) (-24) = 114 ∧
    paintMap (D := ℚ) (getAnalysisArea 600 120) 0 = 65 ∧
    paintMap (D := ℚ) (getAnalysisArea 600 120) 24 = 16 := by
  have harea : getAnalysisArea 600 120 = { x := 20, y := 16, w := 560, h := 98 } := by decide
  rw [harea]
  refine ⟨rfl, ?_, ?_, ?_⟩ <;> norm_num [paintMap, jmap, Rectangle.getBottom]

/-! ## The display string of a rotary slider -/

theorem isNotEmpty_eq_true_iff (s : String) : isNotEmpty s = true ↔ s ≠ "" := by
  simp [isNotEmpty]

/-- The display string for a float parameter, by the comparison of the narrowed value with
999 and by the suffix. -/
theorem getDisplayString_float_eq {V D : Type} [Div D] [NatCast D] [LT D]
    [DecidableRel (fun a b : D => a < b)] (toFloat : V → D) (floatToString : D → ℤ → String)
    (v : V) (suffix : String) :
    getDisplayString toFloat floatToString
        { param := ParameterKind.float, suffix := suffix, value := v } =
      if ((999 : ℕ) : D) < toFloat v then
        if suffix ≠ "" then
          floatToString (toFloat v / ((1000 : ℕ) : D)) 2 ++ " " ++ "k" ++ suffix
        else floatToString (toFloat v / ((1000 : ℕ) : D)) 2
      else
        if suffix ≠ "" then floatToString (toFloat v) 0 ++ " " ++ suffix
        else floatToString (toFloat v) 0 := by
  unfold getDisplayString
  by_cases hv : ((999 : ℕ) : D) < toFloat v <;> by_cases hs : suffix = "" <;>
    simp [hv, hs, isNotEmpty, -Nat.cast_ofNat]

/-- With a non-empty suffix the display string of a float parameter is in `k` units above
999: the narrowed value divided by 1000 and rendered with two decimal places, a blank, `k`
and the suffix; otherwise the narrowed value undivided with zero decimal places, a blank
and the suffix. -/
theorem getDisplayString_k_units {V D : Type} [Div D] [NatCast D] [LT D]
    [DecidableRel (fun a b : D => a < b)] (toFloat : V → D) (floatToString : D → ℤ → String)
    (v : V) (suffix : String) (hs : suffix ≠ "") :
    (((999 : ℕ) : D) < toFloat v →
      getDisplayString toFloat floatToString
          { param := ParameterKind.float, suffix := suffix, value := v } =
        floatToString (toFloat v / ((1000 : ℕ) : D)) 2 ++ " " ++ "k" ++ suffix) ∧
    (¬ ((999 : ℕ) : D) < toFloat v →
      getDisplayString toFloat floatToString
          { param := ParameterKind.float, suffix := suffix, value := v } =
        floatToString (toFloat v) 0 ++ " " ++ suffix) := by
  refine ⟨fun hv => ?_, fun hv => ?_⟩
  · rw [getDisplayString_float_eq, if_pos hv, if_pos hs]
  · rw [getDisplayString_float_eq, if_neg hv, if_pos hs]

/-- The stand-in formats at work: 2000 with the suffix `Hz` is shown as `2.00 kHz`, and a
slider value of 999.001, which the stand-in narrowing takes to 999, as `999 Hz`. -/
theorem getDisplayString_k_units_demo :
    getDisplayString demoToFloat demoFloatToString
        { param := ParameterKind.float, suffix := "Hz", value := (2000000 : ℤ) } =
      "2.00 kHz" ∧
    getDisplayString demoToFloat demoFloatToString
        { param := ParameterKind.float, suffix := "Hz", value := (999001 : ℤ) } =
      "999 Hz" := by
  decide

/-- The frequency label of resized appends `k` whenever it divided by 1000. -/
theorem frequencyLabel_eq {D : Type} [Div D] [NatCast D] [LT D]
    [DecidableRel (fun a b : D => a < b)] (floatToText : D → String) (f : D) :
    frequencyLabel floatToText f =
      if ((999 : ℕ) : D) < f then "" ++ floatToText (f / ((1000 : ℕ) : D)) ++ "k" ++ "Hz"
      else "" ++ floatToText f ++ "Hz" := by
  unfold frequencyLabel
  by_cases hv : ((999 : ℕ) : D) < f <;> simp [hv, -Nat.cast_ofNat]

/-! ## Claim on the display string -/

/-- C12 at the failing input: for a float parameter whose narrowed value is above 999 and
the empty suffix, getDisplayString divides by 1000, renders with two decimal places and
returns the number alone: the `k` is appended only inside `if (suffix.isNotEmpty())`.  With
the stand-in formats the value 2000 is shown as `2.00`, with no `k` (the claim asks for the
`k` marker for every suffix, the empty one included), while the same value with the suffix
`Hz` is shown as `2.00 kHz` and the frequency label of resized for 2000 is `2kHz`. -/
theorem getDisplayString_empty_suffix_drops_k :
    (∀ {V D : Type} [Div D] [NatCast D] [LT D] [DecidableRel (fun a b : D => a < b)]
      (toFloat : V → D) (floatToString : D → ℤ → String) (v : V),
      ((999 : ℕ) : D) < toFloat v →
      getDisplayString toFloat floatToString
          { param := ParameterKind.float, suffix := "", value := v } =
        floatToString (toFloat v / ((1000 : ℕ) : D)) 2) ∧
    ((999 : ℕ) : ℤ) < demoToFloat 2000000 ∧
    getDisplayString demoToFloat demoFloatToString
      { param := ParameterKind.float, suffix := "", value := (2000000 : ℤ) } = "2.00" ∧
    ¬ ('k' ∈ (getDisplayString demoToFloat demoFloatToString
      { param := ParameterKind.float, suffix := "", value := (2000000 : ℤ) }).toList) ∧
    getDisplayString demoToFloat demoFloatToString
      { param := ParameterKind.float, suffix := "Hz", value := (2000000 : ℤ) } = "2.00 kHz" ∧
    frequencyLabel demoFloatToText (2000 : ℤ) = "2kHz" := by
  refine ⟨?_, by decide, by decide, by decide, by decide, by decide⟩
  intro V D _ _ _ _ toFloat floatToString v hv
  rw [getDisplayString_float_eq, if_pos hv, if_neg (fun h => h rfl)]

end SimpleEQ
